import Mathlib

/-!
Verification of the shader linking stage of lima-memtester (premali/lib/program.c).

The development shallowly embeds the C source:
* machine-code instructions are 4 × 32-bit words, modelled as a structure of
  four `Nat` fields (each kept below 2^32 where a claim needs it);
* the two instruction-patch passes (`vertex_shader_attributes_patch`,
  `vertex_shader_varyings_patch`) are translated bit-operation by
  bit-operation, with C's `~mask` on `unsigned int` written as
  `0xFFFFFFFF ^^^ mask`;
* the tagged-chunk stream parsers are embedded over a list of chunks
  (the stream invariant: a stream is a strict concatenation of chunks;
  every C read advances by exactly the size of the chunk it consumed,
  so consuming from the head of the list is the functional image of the
  byte-offset cursor); `calloc` results are supplied by an explicit
  oracle (`List Bool`, exhaustion defaults to success), and dereferencing
  a failed allocation is a distinguished `nullDeref` outcome.
-/

/-- One 128-bit machine-code instruction: four 32-bit words
(`shader[4*i] .. shader[4*i+3]` in the C source). -/
structure Instr where
  w0 : Nat
  w1 : Nat
  w2 : Nat
  w3 : Nat
deriving Repr, DecidableEq

/-- The body of the per-instruction block of `vertex_shader_attributes_patch`
(program.c lines 631-645), acting on one 32-bit word.  The same block appears
verbatim as the first half of the loop body of `vertex_shader_varyings_patch`
(lines 659-672), so it is defined once.  C's `~(0x0F << 26)` on `unsigned int`
is `0xFFFFFFFF ^^^ (0x0F <<< 26)`. -/
def patch_field_26 (w : Nat) : Nat :=
  let tmp := (w >>> 26) &&& 0x1F
  if tmp &&& 0x10 = 0 then
    w
  else
    let tmp1 := tmp &&& 0x0F
    let w1 := w &&& (0xFFFFFFFF ^^^ (0x0F <<< 26))
    let tmp2 := if tmp1 = 0 then 1 else 0
    w1 ||| (tmp2 <<< 26)

/-- `vertex_shader_attributes_patch` (program.c lines 625-647): patch word 1 of
every instruction; no cross-instruction state. -/
def vertex_shader_attributes_patch (shader : List Instr) : List Instr :=
  shader.map fun ins => { ins with w1 := patch_field_26 ins.w1 }

/-- The second half of the loop body of `vertex_shader_varyings_patch`
(program.c lines 674-690): the field whose 5 bits straddle words 2 and 3.
`~(0x01 << 31)` is `0xFFFFFFFF ^^^ (0x01 <<< 31)` and `~0x07` is
`0xFFFFFFFF ^^^ 0x07`. -/
def patch_field_cross (w2 w3 : Nat) : Nat × Nat :=
  let tmp := ((w2 >>> 31) &&& 0x01) ||| ((w3 <<< 1) &&& 0x1E)
  if tmp &&& 0x10 = 0 then
    (w2, w3)
  else
    let tmp1 := tmp &&& 0x0F
    let w2a := w2 &&& (0xFFFFFFFF ^^^ (0x01 <<< 31))
    let w3a := w3 &&& (0xFFFFFFFF ^^^ 0x07)
    let tmp2 := if tmp1 = 0 then 1 else 0
    (w2a ||| (tmp2 <<< 31), w3a ||| (tmp2 >>> 1))

/-- `vertex_shader_varyings_patch` (program.c lines 649-692): for every
instruction, patch the in-word field of word 2, then the cross-word field
(whose low bit is re-read from the already-updated word 2, as in the source). -/
def vertex_shader_varyings_patch (shader : List Instr) : List Instr :=
  shader.map fun ins =>
    let w2 := patch_field_26 ins.w2
    let p := patch_field_cross w2 ins.w3
    { ins with w2 := p.1, w3 := p.2 }

/-- The 4-bit slot index of the attribute/varying field held in bits 26-29 of a
word. -/
def slot26 (w : Nat) : Nat := (w >>> 26) &&& 0x0F

/-- The presence flag of the attribute/varying field of a word: bit 30. -/
def flag26 (w : Nat) : Bool := w.testBit 30

/-- The raw 5-bit cross-word varying field, exactly as the source assembles it:
low bit from bit 31 of word 2, upper four bits from bits 0-3 of word 3. -/
def crossField (w2 w3 : Nat) : Nat :=
  ((w2 >>> 31) &&& 0x01) ||| ((w3 <<< 1) &&& 0x1E)

/-- The 4-bit slot index of the cross-word varying field. -/
def crossSlot (w2 w3 : Nat) : Nat := crossField w2 w3 &&& 0x0F

/-- The presence flag of the cross-word varying field: bit 4 of the assembled
field, which is bit 3 of word 3. -/
def crossFlag (w2 w3 : Nat) : Bool := crossField w2 w3 &&& 0x10 ≠ 0

lemma and_two_pow_eq_zero_iff (x i : Nat) :
    x &&& 2 ^ i = 0 ↔ x.testBit i = false := by
  constructor
  · intro h
    by_contra hb
    have hb' : x.testBit i = true := by
      cases hx : x.testBit i with
      | false => exact absurd hx hb
      | true => rfl
    have ht : (x &&& 2 ^ i).testBit i = true := by
      simp [Nat.testBit_and, hb', Nat.testBit_two_pow_self]
    rw [h] at ht
    simp [Nat.zero_testBit] at ht
  · intro h
    apply Nat.eq_of_testBit_eq
    intro j
    simp only [Nat.testBit_and, Nat.zero_testBit]
    rcases eq_or_ne i j with rfl | hne
    · simp [h]
    · simp [Nat.testBit_two_pow_of_ne hne]

lemma testBit_extract (w a k j : Nat) :
    ((w >>> a) &&& (2 ^ k - 1)).testBit j = (w.testBit (a + j) && decide (j < k)) := by
  simp [Nat.testBit_and, Nat.testBit_shiftRight, Nat.testBit_two_pow_sub_one]
  exact Bool.and_comm _ _

lemma testBit_mask26 (j : Nat) :
    ((0xFFFFFFFF : Nat) ^^^ (0x0F <<< 26)).testBit j =
      decide (j < 26 ∨ (30 ≤ j ∧ j < 32)) := by
  rw [show (0xFFFFFFFF : Nat) ^^^ (0x0F <<< 26) = 2 ^ 30 * 3 + (2 ^ 26 - 1) by decide]
  rw [Nat.testBit_mul_pow_two_add 3 (by norm_num) j]
  rw [show (3 : Nat) = 2 ^ 2 - 1 by norm_num]
  simp only [Nat.testBit_two_pow_sub_one]
  split_ifs with h <;> (rw [decide_eq_decide]; omega)

lemma testBit_mask31 (j : Nat) :
    ((0xFFFFFFFF : Nat) ^^^ (0x01 <<< 31)).testBit j = decide (j < 31) := by
  rw [show (0xFFFFFFFF : Nat) ^^^ (0x01 <<< 31) = 2 ^ 31 - 1 by decide,
      Nat.testBit_two_pow_sub_one]

lemma testBit_mask7 (j : Nat) :
    ((0xFFFFFFFF : Nat) ^^^ 0x07).testBit j = decide (3 ≤ j ∧ j < 32) := by
  rw [show (0xFFFFFFFF : Nat) ^^^ 0x07 = 2 ^ 3 * (2 ^ 29 - 1) by decide]
  rw [Nat.testBit_mul_pow_two]
  simp only [Nat.testBit_two_pow_sub_one]
  by_cases h1 : 3 ≤ j <;> by_cases h2 : j < 32 <;> simp [h1, h2] <;> omega

lemma patch_field_26_guard (w : Nat) :
    (((w >>> 26) &&& 0x1F) &&& 0x10 = 0) ↔ flag26 w = false := by
  rw [show (0x10 : Nat) = 2 ^ 4 by norm_num, and_two_pow_eq_zero_iff,
      show (0x1F : Nat) = 2 ^ 5 - 1 by norm_num, testBit_extract]
  simp [flag26]

lemma patch_field_26_of_flag_unset (w : Nat) (h : flag26 w = false) :
    patch_field_26 w = w := by
  simp only [patch_field_26]
  rw [if_pos ((patch_field_26_guard w).mpr h)]

lemma patch_field_26_of_flag_set (w : Nat) (h : flag26 w = true) :
    patch_field_26 w = (w &&& (0xFFFFFFFF ^^^ (0x0F <<< 26))) |||
      ((if slot26 w = 0 then 1 else 0) <<< 26) := by
  have hc : ¬ (((w >>> 26) &&& 0x1F) &&& 0x10 = 0) := by
    rw [patch_field_26_guard, h]; simp
  simp only [patch_field_26]
  rw [if_neg hc, Nat.and_assoc, show (0x1F : Nat) &&& 0x0F = 0x0F by decide]
  rfl

lemma patched26_testBit_low (w t j : Nat) (hj : j < 26) :
    ((w &&& (0xFFFFFFFF ^^^ (0x0F <<< 26))) ||| (t <<< 26)).testBit j = w.testBit j := by
  simp only [Nat.testBit_or, Nat.testBit_and, Nat.testBit_shiftLeft, testBit_mask26]
  have h1 : decide (j < 26 ∨ (30 ≤ j ∧ j < 32)) = true := by
    rw [decide_eq_true_eq]; omega
  have h2 : decide (j ≥ 26) = false := by
    rw [decide_eq_false_iff_not]; omega
  rw [h1, h2]
  simp

lemma testBit_le_one (t j : Nat) (ht : t ≤ 1) (hj : 1 ≤ j) : t.testBit j = false := by
  apply Nat.testBit_lt_two_pow
  have h2 : (2 : Nat) ^ 1 ≤ 2 ^ j := Nat.pow_le_pow_right (by norm_num) hj
  simp at h2
  omega

lemma patched26_testBit_high (w t j : Nat) (ht : t ≤ 1) (hj : 30 ≤ j) (hj2 : j < 32) :
    ((w &&& (0xFFFFFFFF ^^^ (0x0F <<< 26))) ||| (t <<< 26)).testBit j = w.testBit j := by
  simp only [Nat.testBit_or, Nat.testBit_and, Nat.testBit_shiftLeft, testBit_mask26]
  have h1 : decide (j < 26 ∨ (30 ≤ j ∧ j < 32)) = true := by
    rw [decide_eq_true_eq]; omega
  have h3 : t.testBit (j - 26) = false := testBit_le_one t _ ht (by omega)
  rw [h1, h3]
  simp

lemma testBit_extract4 (w a j : Nat) :
    ((w >>> a) &&& 0x0F).testBit j = (w.testBit (a + j) && decide (j < 4)) := by
  rw [show (0x0F : Nat) = 2 ^ 4 - 1 by norm_num]
  exact testBit_extract w a 4 j

lemma patched26_slot (w t : Nat) (ht : t < 16) :
    slot26 ((w &&& (0xFFFFFFFF ^^^ (0x0F <<< 26))) ||| (t <<< 26)) = t := by
  unfold slot26
  apply Nat.eq_of_testBit_eq
  intro k
  rw [testBit_extract4]
  by_cases hk : k < 4
  · simp only [Nat.testBit_or, Nat.testBit_and, Nat.testBit_shiftLeft, testBit_mask26]
    have hm : decide (26 + k < 26 ∨ (30 ≤ 26 + k ∧ 26 + k < 32)) = false := by
      rw [decide_eq_false_iff_not]; omega
    have hge : decide (26 + k ≥ 26) = true := by simp
    have hk' : decide (k < 4) = true := by rw [decide_eq_true_eq]; exact hk
    rw [hm, hge, hk']
    simp
  · have h1 : t.testBit k = false := by
      apply Nat.testBit_lt_two_pow
      have h2 : (2 : Nat) ^ 4 ≤ 2 ^ k := Nat.pow_le_pow_right (by norm_num) (by omega)
      norm_num at h2
      omega
    have hk' : decide (k < 4) = false := by rw [decide_eq_false_iff_not]; exact hk
    rw [hk', h1]
    simp

lemma patched26_lt (w t : Nat) (hw : w < 2 ^ 32) (ht : t ≤ 1) :
    ((w &&& (0xFFFFFFFF ^^^ (0x0F <<< 26))) ||| (t <<< 26)) < 2 ^ 32 := by
  apply Nat.or_lt_two_pow
  · exact lt_of_le_of_lt Nat.and_le_left hw
  · have h1 : t <<< 26 = t * 2 ^ 26 := Nat.shiftLeft_eq t 26
    have h2 : t * 2 ^ 26 ≤ 2 ^ 26 := by
      calc t * 2 ^ 26 ≤ 1 * 2 ^ 26 := Nat.mul_le_mul_right _ ht
      _ = 2 ^ 26 := by ring
    rw [h1]
    calc t * 2 ^ 26 ≤ 2 ^ 26 := h2
    _ < 2 ^ 32 := by norm_num

lemma patch_field_26_slot_remap (w : Nat) (h : flag26 w = true) :
    slot26 (patch_field_26 w) = if slot26 w = 0 then 1 else 0 := by
  rw [patch_field_26_of_flag_set w h]
  apply patched26_slot
  split <;> norm_num

lemma patch_field_26_flag_preserved (w : Nat) :
    flag26 (patch_field_26 w) = flag26 w := by
  cases h : flag26 w with
  | false => rw [patch_field_26_of_flag_unset w h, h]
  | true =>
    rw [patch_field_26_of_flag_set w h]
    unfold flag26
    rw [patched26_testBit_high w _ 30 (by split <;> norm_num) (by norm_num) (by norm_num)]
    exact h

lemma patch_field_26_outside_preserved (w : Nat) (j : Nat)
    (hj : j < 26 ∨ (30 ≤ j ∧ j < 32)) :
    (patch_field_26 w).testBit j = w.testBit j := by
  cases h : flag26 w with
  | false => rw [patch_field_26_of_flag_unset w h]
  | true =>
    rw [patch_field_26_of_flag_set w h]
    rcases hj with hj | ⟨hj1, hj2⟩
    · exact patched26_testBit_low w _ j hj
    · exact patched26_testBit_high w _ j (by split <;> norm_num) hj1 hj2

lemma patch_field_26_lt (w : Nat) (hw : w < 2 ^ 32) : patch_field_26 w < 2 ^ 32 := by
  cases h : flag26 w with
  | false => rw [patch_field_26_of_flag_unset w h]; exact hw
  | true =>
    rw [patch_field_26_of_flag_set w h]
    exact patched26_lt w _ hw (by split <;> norm_num)

lemma testBit_and15 (x k : Nat) :
    (x &&& 0x0F).testBit k = (x.testBit k && decide (k < 4)) := by
  rw [show (0x0F : Nat) = 2 ^ 4 - 1 by norm_num]
  simp only [Nat.testBit_and, Nat.testBit_two_pow_sub_one]

lemma crossField_bit4 (w2 w3 : Nat) : (crossField w2 w3).testBit 4 = w3.testBit 3 := by
  unfold crossField
  simp only [Nat.testBit_or, Nat.testBit_and, Nat.testBit_shiftLeft, Nat.testBit_shiftRight]
  rw [show Nat.testBit 0x01 4 = false by decide, show Nat.testBit 0x1E 4 = true by decide]
  simp

lemma patch_field_cross_guard (w2 w3 : Nat) :
    (crossField w2 w3 &&& 0x10 = 0) ↔ w3.testBit 3 = false := by
  rw [show (0x10 : Nat) = 2 ^ 4 by norm_num, and_two_pow_eq_zero_iff, crossField_bit4]

lemma patch_field_cross_of_flag_unset (w2 w3 : Nat) (h : w3.testBit 3 = false) :
    patch_field_cross w2 w3 = (w2, w3) := by
  have hc := (patch_field_cross_guard w2 w3).mpr h
  unfold crossField at hc
  simp only [patch_field_cross]
  rw [if_pos hc]

lemma patch_field_cross_of_flag_set (w2 w3 : Nat) (h : w3.testBit 3 = true) :
    patch_field_cross w2 w3 =
      ((w2 &&& (0xFFFFFFFF ^^^ (0x01 <<< 31))) |||
          ((if crossSlot w2 w3 = 0 then 1 else 0) <<< 31),
        (w3 &&& (0xFFFFFFFF ^^^ 0x07)) |||
          ((if crossSlot w2 w3 = 0 then 1 else 0) >>> 1)) := by
  have hc : ¬ (crossField w2 w3 &&& 0x10 = 0) := by
    rw [patch_field_cross_guard, h]; simp
  unfold crossField at hc
  simp only [patch_field_cross]
  rw [if_neg hc]
  rfl

lemma cross_w2_low (w2 w3 : Nat) (j : Nat) (hj : j < 31) :
    (patch_field_cross w2 w3).1.testBit j = w2.testBit j := by
  cases h : w3.testBit 3 with
  | false => rw [patch_field_cross_of_flag_unset w2 w3 h]
  | true =>
    rw [patch_field_cross_of_flag_set w2 w3 h]
    simp only [Nat.testBit_or, Nat.testBit_and, Nat.testBit_shiftLeft, testBit_mask31]
    have h1 : decide (j < 31) = true := by rw [decide_eq_true_eq]; exact hj
    have h2 : decide (j ≥ 31) = false := by rw [decide_eq_false_iff_not]; omega
    rw [h1, h2]
    simp

lemma cross_w2_bit31 (w2 w3 : Nat) (h : w3.testBit 3 = true) :
    (patch_field_cross w2 w3).1.testBit 31 = decide (crossSlot w2 w3 = 0) := by
  rw [patch_field_cross_of_flag_set w2 w3 h]
  simp only [Nat.testBit_or, Nat.testBit_and, Nat.testBit_shiftLeft, testBit_mask31]
  rw [show decide ((31 : Nat) < 31) = false by decide, show decide ((31 : Nat) ≥ 31) = true by decide]
  simp only [Bool.and_false, Bool.false_or, Bool.true_and, Nat.sub_self]
  split <;> simp [*]

lemma cross_w2_lt (w2 w3 : Nat) (hw : w2 < 2 ^ 32) :
    (patch_field_cross w2 w3).1 < 2 ^ 32 := by
  cases h : w3.testBit 3 with
  | false => rw [patch_field_cross_of_flag_unset w2 w3 h]; exact hw
  | true =>
    rw [patch_field_cross_of_flag_set w2 w3 h]
    apply Nat.or_lt_two_pow
    · exact lt_of_le_of_lt Nat.and_le_left hw
    · have ht : (if crossSlot w2 w3 = 0 then 1 else 0) ≤ 1 := by split <;> norm_num
      have h1 : (if crossSlot w2 w3 = 0 then 1 else 0) <<< 31 =
          (if crossSlot w2 w3 = 0 then 1 else 0) * 2 ^ 31 := Nat.shiftLeft_eq _ 31
      rw [h1]
      have h2 : (if crossSlot w2 w3 = 0 then 1 else 0) * 2 ^ 31 ≤ 2 ^ 31 := by
        calc (if crossSlot w2 w3 = 0 then 1 else 0) * 2 ^ 31 ≤ 1 * 2 ^ 31 :=
          Nat.mul_le_mul_right _ ht
        _ = 2 ^ 31 := by ring
      calc (if crossSlot w2 w3 = 0 then 1 else 0) * 2 ^ 31 ≤ 2 ^ 31 := h2
      _ < 2 ^ 32 := by norm_num

lemma if_slot_shiftRight_one (c : Prop) [Decidable c] :
    ((if c then 1 else 0) : Nat) >>> 1 = 0 := by
  split <;> decide

lemma cross_w3_eq_of_flag_set (w2 w3 : Nat) (h : w3.testBit 3 = true) :
    (patch_field_cross w2 w3).2 = w3 &&& (0xFFFFFFFF ^^^ 0x07) := by
  rw [patch_field_cross_of_flag_set w2 w3 h, if_slot_shiftRight_one, Nat.or_zero]

lemma cross_w3_high (w2 w3 : Nat) (j : Nat) (hj : 3 ≤ j) (hj2 : j < 32) :
    (patch_field_cross w2 w3).2.testBit j = w3.testBit j := by
  cases h : w3.testBit 3 with
  | false => rw [patch_field_cross_of_flag_unset w2 w3 h]
  | true =>
    rw [cross_w3_eq_of_flag_set w2 w3 h]
    simp only [Nat.testBit_and, testBit_mask7]
    have h1 : decide (3 ≤ j ∧ j < 32) = true := by rw [decide_eq_true_eq]; exact ⟨hj, hj2⟩
    rw [h1]
    simp

lemma cross_w3_low_of_flag_set (w2 w3 : Nat) (h : w3.testBit 3 = true) (j : Nat)
    (hj : j < 3) :
    (patch_field_cross w2 w3).2.testBit j = false := by
  rw [cross_w3_eq_of_flag_set w2 w3 h]
  simp only [Nat.testBit_and, testBit_mask7]
  have h1 : decide (3 ≤ j ∧ j < 32) = false := by rw [decide_eq_false_iff_not]; omega
  rw [h1]
  simp

lemma cross_w3_lt (w2 w3 : Nat) (hw : w3 < 2 ^ 32) :
    (patch_field_cross w2 w3).2 < 2 ^ 32 := by
  cases h : w3.testBit 3 with
  | false => rw [patch_field_cross_of_flag_unset w2 w3 h]; exact hw
  | true =>
    rw [cross_w3_eq_of_flag_set w2 w3 h]
    exact lt_of_le_of_lt Nat.and_le_left hw

lemma cross_slot_remap (w2 w3 : Nat) (h : w3.testBit 3 = true) :
    crossSlot (patch_field_cross w2 w3).1 (patch_field_cross w2 w3).2 =
      if crossSlot w2 w3 = 0 then 1 else 0 := by
  apply Nat.eq_of_testBit_eq
  intro k
  rw [show crossSlot (patch_field_cross w2 w3).1 (patch_field_cross w2 w3).2 =
        crossField (patch_field_cross w2 w3).1 (patch_field_cross w2 w3).2 &&& 0x0F from rfl]
  rw [testBit_and15]
  rw [show crossField (patch_field_cross w2 w3).1 (patch_field_cross w2 w3).2 =
        (((patch_field_cross w2 w3).1 >>> 31) &&& 0x01) |||
          (((patch_field_cross w2 w3).2 <<< 1) &&& 0x1E) from rfl]
  simp only [Nat.testBit_or, Nat.testBit_and, Nat.testBit_shiftLeft, Nat.testBit_shiftRight]
  match k with
  | 0 =>
    rw [show Nat.testBit 0x01 0 = true by decide, show Nat.testBit 0x1E 0 = false by decide]
    have hb := cross_w2_bit31 w2 w3 h
    simp only [Nat.add_zero] at hb ⊢
    rw [hb]
    split <;> simp [*]
  | 1 =>
    rw [show Nat.testBit 0x01 1 = false by decide]
    have hb := cross_w3_low_of_flag_set w2 w3 h 0 (by norm_num)
    simp [hb]
    split <;> decide
  | 2 =>
    rw [show Nat.testBit 0x01 2 = false by decide]
    have hb := cross_w3_low_of_flag_set w2 w3 h 1 (by norm_num)
    simp [hb]
    split <;> decide
  | 3 =>
    rw [show Nat.testBit 0x01 3 = false by decide]
    have hb := cross_w3_low_of_flag_set w2 w3 h 2 (by norm_num)
    simp [hb]
    split <;> decide
  | (k + 4) =>
    have h1 : decide (k + 4 < 4) = false := by rw [decide_eq_false_iff_not]; omega
    rw [h1]
    have h2 : ((if crossSlot w2 w3 = 0 then 1 else 0) : Nat).testBit (k + 4) = false := by
      apply testBit_le_one
      · split <;> norm_num
      · omega
    rw [h2]
    simp

lemma cross_flag_preserved (w2 w3 : Nat) :
    (patch_field_cross w2 w3).2.testBit 3 = w3.testBit 3 := by
  exact cross_w3_high w2 w3 3 (by norm_num) (by norm_num)

lemma crossField_congr_w2 (x y w3 : Nat) (h : x.testBit 31 = y.testBit 31) :
    crossField x w3 = crossField y w3 := by
  unfold crossField
  congr 1
  rw [Nat.and_one_is_mod, Nat.and_one_is_mod,
      Nat.shiftRight_eq_div_pow, Nat.shiftRight_eq_div_pow]
  have hx : x.testBit 31 = decide (x / 2 ^ 31 % 2 = 1) := Nat.testBit_to_div_mod
  have hy : y.testBit 31 = decide (y / 2 ^ 31 % 2 = 1) := Nat.testBit_to_div_mod
  rw [hx, hy] at h
  have hiff := decide_eq_decide.mp h
  omega

lemma crossSlot_patch26 (w2 w3 : Nat) :
    crossSlot (patch_field_26 w2) w3 = crossSlot w2 w3 := by
  unfold crossSlot
  rw [crossField_congr_w2 (patch_field_26 w2) w2 w3
        (patch_field_26_outside_preserved w2 31 (Or.inr ⟨by norm_num, by norm_num⟩))]

lemma patch26_bit31 (w : Nat) : (patch_field_26 w).testBit 31 = w.testBit 31 :=
  patch_field_26_outside_preserved w 31 (Or.inr ⟨by norm_num, by norm_num⟩)

/-- C1: for every instruction of the segment, `vertex_shader_attributes_patch`
rewrites only word 1 via `patch_field_26`; that function reads the 5-bit field
at bits 26-30 of word 1; when bit 4 of the field (the presence flag, bit 30 of
the word) is unset the word — hence the whole instruction — is unchanged; when
it is set, the 4-bit slot index becomes 1 if it was 0 and 0 otherwise, while
the presence flag and every other bit of the word are unchanged. -/
theorem C1_attribute_slot_patch (shader : List Instr) (ins : Instr) (i : Nat)
    (hins : shader[i]? = some ins) (hw : ins.w1 < 2 ^ 32) :
    (vertex_shader_attributes_patch shader)[i]? =
      some { ins with w1 := patch_field_26 ins.w1 } ∧
    (flag26 ins.w1 = false → patch_field_26 ins.w1 = ins.w1) ∧
    (flag26 ins.w1 = true →
      slot26 (patch_field_26 ins.w1) = (if slot26 ins.w1 = 0 then 1 else 0) ∧
      flag26 (patch_field_26 ins.w1) = true ∧
      (∀ j, j < 32 → j < 26 ∨ 30 ≤ j →
        (patch_field_26 ins.w1).testBit j = ins.w1.testBit j) ∧
      patch_field_26 ins.w1 < 2 ^ 32) := by
  refine ⟨?_, ?_, ?_⟩
  · simp [vertex_shader_attributes_patch, List.getElem?_map, hins]
  · intro h
    exact patch_field_26_of_flag_unset _ h
  · intro h
    refine ⟨patch_field_26_slot_remap _ h, ?_, ?_, patch_field_26_lt _ hw⟩
    · rw [patch_field_26_flag_preserved]; exact h
    · intro j hj32 hj
      apply patch_field_26_outside_preserved
      rcases hj with hj | hj
      · exact Or.inl hj
      · exact Or.inr ⟨hj, hj32⟩

/-- C1 witness: concrete evaluation at a one-instruction segment whose word 1
has the presence flag set and slot 1. -/
theorem C1_attribute_slot_patch_witness :
    (([Instr.mk 5 0x44000001 7 9] : List Instr)[0]? = some (Instr.mk 5 0x44000001 7 9)) ∧
    ((Instr.mk 5 0x44000001 7 9).w1 < 2 ^ 32) ∧
    ((vertex_shader_attributes_patch [Instr.mk 5 0x44000001 7 9])[0]? =
      some { Instr.mk 5 0x44000001 7 9 with
              w1 := patch_field_26 (Instr.mk 5 0x44000001 7 9).w1 } ∧
    (flag26 (Instr.mk 5 0x44000001 7 9).w1 = false →
      patch_field_26 (Instr.mk 5 0x44000001 7 9).w1 = (Instr.mk 5 0x44000001 7 9).w1) ∧
    (flag26 (Instr.mk 5 0x44000001 7 9).w1 = true →
      slot26 (patch_field_26 (Instr.mk 5 0x44000001 7 9).w1) =
        (if slot26 (Instr.mk 5 0x44000001 7 9).w1 = 0 then 1 else 0) ∧
      flag26 (patch_field_26 (Instr.mk 5 0x44000001 7 9).w1) = true ∧
      (∀ j, j < 32 → j < 26 ∨ 30 ≤ j →
        (patch_field_26 (Instr.mk 5 0x44000001 7 9).w1).testBit j =
          (Instr.mk 5 0x44000001 7 9).w1.testBit j) ∧
      patch_field_26 (Instr.mk 5 0x44000001 7 9).w1 < 2 ^ 32)) :=
  ⟨by decide, by decide,
    C1_attribute_slot_patch [Instr.mk 5 0x44000001 7 9] (Instr.mk 5 0x44000001 7 9) 0
      (by decide) (by decide)⟩

/-- C2: for every instruction, `vertex_shader_varyings_patch` rewrites only
words 2 and 3 via the two independent fields: the in-word field at bits 26-30
of word 2 (same 0-to-1 / nonzero-to-0 rule via `patch_field_26`) and the
cross-word field whose low bit is bit 31 of word 2 and whose upper 4 bits are
bits 0-3 of word 3; for the cross-word field encoding presence=1 slot=1 the
patched result encodes slot=0 in the same split layout, and all bits of both
words outside the two fields are preserved. -/
theorem C2_varying_slot_patch (shader : List Instr) (ins : Instr) (i : Nat)
    (hins : shader[i]? = some ins) :
    (vertex_shader_varyings_patch shader)[i]? =
      some { ins with
              w2 := (patch_field_cross (patch_field_26 ins.w2) ins.w3).1,
              w3 := (patch_field_cross (patch_field_26 ins.w2) ins.w3).2 } ∧
    (flag26 ins.w2 = false → patch_field_26 ins.w2 = ins.w2) ∧
    (flag26 ins.w2 = true →
      slot26 (patch_field_26 ins.w2) = (if slot26 ins.w2 = 0 then 1 else 0)) ∧
    (ins.w3.testBit 3 = true →
      crossSlot (patch_field_cross (patch_field_26 ins.w2) ins.w3).1
          (patch_field_cross (patch_field_26 ins.w2) ins.w3).2 =
        (if crossSlot ins.w2 ins.w3 = 0 then 1 else 0)) ∧
    (ins.w3.testBit 3 = true → crossSlot ins.w2 ins.w3 = 1 →
      crossSlot (patch_field_cross (patch_field_26 ins.w2) ins.w3).1
          (patch_field_cross (patch_field_26 ins.w2) ins.w3).2 = 0 ∧
      (patch_field_cross (patch_field_26 ins.w2) ins.w3).1.testBit 31 = false ∧
      (∀ j, j < 3 →
        (patch_field_cross (patch_field_26 ins.w2) ins.w3).2.testBit j = false) ∧
      (patch_field_cross (patch_field_26 ins.w2) ins.w3).2.testBit 3 = true) ∧
    (∀ j, j < 26 →
      (patch_field_cross (patch_field_26 ins.w2) ins.w3).1.testBit j =
        ins.w2.testBit j) ∧
    (∀ j, 4 ≤ j → j < 32 →
      (patch_field_cross (patch_field_26 ins.w2) ins.w3).2.testBit j =
        ins.w3.testBit j) := by
  refine ⟨?_, ?_, ?_, ?_, ?_, ?_, ?_⟩
  · simp [vertex_shader_varyings_patch, List.getElem?_map, hins]
  · intro h
    exact patch_field_26_of_flag_unset _ h
  · intro h
    exact patch_field_26_slot_remap _ h
  · intro h
    rw [cross_slot_remap _ _ h, crossSlot_patch26]
  · intro h h1
    refine ⟨?_, ?_, ?_, ?_⟩
    · rw [cross_slot_remap _ _ h, crossSlot_patch26, h1]
      norm_num
    · rw [cross_w2_bit31 _ _ h, crossSlot_patch26, h1]
      simp
    · intro j hj
      exact cross_w3_low_of_flag_set _ _ h j hj
    · rw [cross_flag_preserved]
      exact h
  · intro j hj
    rw [cross_w2_low _ _ j (by omega)]
    exact patch_field_26_outside_preserved ins.w2 j (Or.inl hj)
  · intro j hj hj2
    exact cross_w3_high _ _ j (by omega) hj2

/-- C2 witness: a one-instruction segment whose cross-word field encodes
presence=1 slot=1 (bit 31 of word 2 set, bit 3 of word 3 set). -/
theorem C2_varying_slot_patch_witness :
    (([Instr.mk 1 2 0x80000000 0x00000018] : List Instr)[0]? =
      some (Instr.mk 1 2 0x80000000 0x00000018)) ∧
    ((vertex_shader_varyings_patch [Instr.mk 1 2 0x80000000 0x00000018])[0]? =
      some { Instr.mk 1 2 0x80000000 0x00000018 with
              w2 := (patch_field_cross
                (patch_field_26 (Instr.mk 1 2 0x80000000 0x00000018).w2)
                (Instr.mk 1 2 0x80000000 0x00000018).w3).1,
              w3 := (patch_field_cross
                (patch_field_26 (Instr.mk 1 2 0x80000000 0x00000018).w2)
                (Instr.mk 1 2 0x80000000 0x00000018).w3).2 } ∧
    (flag26 (Instr.mk 1 2 0x80000000 0x00000018).w2 = false →
      patch_field_26 (Instr.mk 1 2 0x80000000 0x00000018).w2 =
        (Instr.mk 1 2 0x80000000 0x00000018).w2) ∧
    (flag26 (Instr.mk 1 2 0x80000000 0x00000018).w2 = true →
      slot26 (patch_field_26 (Instr.mk 1 2 0x80000000 0x00000018).w2) =
        (if slot26 (Instr.mk 1 2 0x80000000 0x00000018).w2 = 0 then 1 else 0)) ∧
    ((Instr.mk 1 2 0x80000000 0x00000018).w3.testBit 3 = true →
      crossSlot (patch_field_cross
          (patch_field_26 (Instr.mk 1 2 0x80000000 0x00000018).w2)
          (Instr.mk 1 2 0x80000000 0x00000018).w3).1
        (patch_field_cross
          (patch_field_26 (Instr.mk 1 2 0x80000000 0x00000018).w2)
          (Instr.mk 1 2 0x80000000 0x00000018).w3).2 =
        (if crossSlot (Instr.mk 1 2 0x80000000 0x00000018).w2
            (Instr.mk 1 2 0x80000000 0x00000018).w3 = 0 then 1 else 0)) ∧
    ((Instr.mk 1 2 0x80000000 0x00000018).w3.testBit 3 = true →
      crossSlot (Instr.mk 1 2 0x80000000 0x00000018).w2
          (Instr.mk 1 2 0x80000000 0x00000018).w3 = 1 →
      crossSlot (patch_field_cross
          (patch_field_26 (Instr.mk 1 2 0x80000000 0x00000018).w2)
          (Instr.mk 1 2 0x80000000 0x00000018).w3).1
        (patch_field_cross
          (patch_field_26 (Instr.mk 1 2 0x80000000 0x00000018).w2)
          (Instr.mk 1 2 0x80000000 0x00000018).w3).2 = 0 ∧
      (patch_field_cross
        (patch_field_26 (Instr.mk 1 2 0x80000000 0x00000018).w2)
        (Instr.mk 1 2 0x80000000 0x00000018).w3).1.testBit 31 = false ∧
      (∀ j, j < 3 →
        (patch_field_cross
          (patch_field_26 (Instr.mk 1 2 0x80000000 0x00000018).w2)
          (Instr.mk 1 2 0x80000000 0x00000018).w3).2.testBit j = false) ∧
      (patch_field_cross
        (patch_field_26 (Instr.mk 1 2 0x80000000 0x00000018).w2)
        (Instr.mk 1 2 0x80000000 0x00000018).w3).2.testBit 3 = true) ∧
    (∀ j, j < 26 →
      (patch_field_cross
        (patch_field_26 (Instr.mk 1 2 0x80000000 0x00000018).w2)
        (Instr.mk 1 2 0x80000000 0x00000018).w3).1.testBit j =
        (Instr.mk 1 2 0x80000000 0x00000018).w2.testBit j) ∧
    (∀ j, 4 ≤ j → j < 32 →
      (patch_field_cross
        (patch_field_26 (Instr.mk 1 2 0x80000000 0x00000018).w2)
        (Instr.mk 1 2 0x80000000 0x00000018).w3).2.testBit j =
        (Instr.mk 1 2 0x80000000 0x00000018).w3.testBit j)) :=
  ⟨by decide,
    C2_varying_slot_patch [Instr.mk 1 2 0x80000000 0x00000018]
      (Instr.mk 1 2 0x80000000 0x00000018) 0 (by decide)⟩

/-- C7 counterexample: the claim says applying the slot remap twice to a
slot-1-encoded instruction yields slot 0.  On the code it yields slot 1: the
word 0x44000000 encodes presence=1 slot=1, and patching its instruction twice
returns the original instruction, whose slot is 1, not 0. -/
theorem C7_counterexample :
    vertex_shader_attributes_patch
        (vertex_shader_attributes_patch [Instr.mk 0 0x44000000 0 0]) =
      [Instr.mk 0 0x44000000 0 0] ∧
    flag26 (0x44000000 : Nat) = true ∧
    slot26 (0x44000000 : Nat) = 1 ∧
    ¬ slot26 (patch_field_26 (patch_field_26 0x44000000)) = 0 := by
  refine ⟨by decide, by decide, by decide, by decide⟩

/-- C7 amended: applying the remap twice to a slot-1-encoded flagged field
yields slot 1 again (the 0-1 swap is involutive there), and the one-step remap
of a flagged field is the map sending 0 to 1 and every non-zero slot to 0. -/
theorem C7_amended_slot_remap (w : Nat) (h : flag26 w = true) :
    (slot26 w = 1 → slot26 (patch_field_26 (patch_field_26 w)) = 1) ∧
    slot26 (patch_field_26 w) = (if slot26 w = 0 then 1 else 0) := by
  have h2 : flag26 (patch_field_26 w) = true := by
    rw [patch_field_26_flag_preserved]; exact h
  constructor
  · intro h1
    rw [patch_field_26_slot_remap _ h2, patch_field_26_slot_remap _ h, h1]
    norm_num
  · exact patch_field_26_slot_remap _ h

/-- C7 amended witness: evaluation at the slot-1 flagged word 0x44000000. -/
theorem C7_amended_slot_remap_witness :
    flag26 (0x44000000 : Nat) = true ∧
    ((slot26 (0x44000000 : Nat) = 1 →
        slot26 (patch_field_26 (patch_field_26 0x44000000)) = 1) ∧
      slot26 (patch_field_26 0x44000000) =
        (if slot26 (0x44000000 : Nat) = 0 then 1 else 0)) :=
  ⟨by decide, C7_amended_slot_remap 0x44000000 (by decide)⟩

lemma slot26_congr (x y : Nat) (h : ∀ k, k < 4 → x.testBit (26 + k) = y.testBit (26 + k)) :
    slot26 x = slot26 y := by
  unfold slot26
  apply Nat.eq_of_testBit_eq
  intro k
  rw [testBit_extract4, testBit_extract4]
  by_cases hk : k < 4
  · rw [h k hk]
  · have hk' : decide (k < 4) = false := by rw [decide_eq_false_iff_not]; exact hk
    rw [hk']
    simp

/-- C10: neither patch pass changes a presence flag.  After the attribute pass
followed by the varyings pass, bit 30 of word 1, bit 30 of word 2 and bit 3 of
word 3 equal their original values; a field whose flag is unset keeps its index
bits, and each pass touches only the index bits of flagged fields (word 0 is
copied, word 1 keeps all bits outside 26-29, word 2 keeps all bits outside
26-29 and 31, word 3 keeps all bits outside 0-2). -/
theorem C10_presence_flags_preserved (shader : List Instr) (ins : Instr) (i : Nat)
    (hins : shader[i]? = some ins) :
    (vertex_shader_varyings_patch (vertex_shader_attributes_patch shader))[i]? =
      some { ins with
              w1 := patch_field_26 ins.w1,
              w2 := (patch_field_cross (patch_field_26 ins.w2) ins.w3).1,
              w3 := (patch_field_cross (patch_field_26 ins.w2) ins.w3).2 } ∧
    flag26 (patch_field_26 ins.w1) = flag26 ins.w1 ∧
    flag26 ((patch_field_cross (patch_field_26 ins.w2) ins.w3).1) = flag26 ins.w2 ∧
    ((patch_field_cross (patch_field_26 ins.w2) ins.w3).2).testBit 3 =
      ins.w3.testBit 3 ∧
    (flag26 ins.w1 = false → patch_field_26 ins.w1 = ins.w1) ∧
    (flag26 ins.w2 = false →
      slot26 ((patch_field_cross (patch_field_26 ins.w2) ins.w3).1) = slot26 ins.w2) ∧
    (ins.w3.testBit 3 = false →
      ((patch_field_cross (patch_field_26 ins.w2) ins.w3).1).testBit 31 =
        ins.w2.testBit 31 ∧
      (patch_field_cross (patch_field_26 ins.w2) ins.w3).2 = ins.w3) ∧
    (∀ j, j < 32 → j < 26 ∨ 30 ≤ j →
      (patch_field_26 ins.w1).testBit j = ins.w1.testBit j) ∧
    (∀ j, j < 26 ∨ j = 30 →
      ((patch_field_cross (patch_field_26 ins.w2) ins.w3).1).testBit j =
        ins.w2.testBit j) ∧
    (∀ j, 3 ≤ j → j < 32 →
      ((patch_field_cross (patch_field_26 ins.w2) ins.w3).2).testBit j =
        ins.w3.testBit j) := by
  have hw2bits : ∀ j, j < 26 ∨ j = 30 →
      ((patch_field_cross (patch_field_26 ins.w2) ins.w3).1).testBit j =
        ins.w2.testBit j := by
    intro j hj
    rw [cross_w2_low _ _ j (by omega)]
    apply patch_field_26_outside_preserved
    omega
  refine ⟨?_, patch_field_26_flag_preserved _, ?_, cross_flag_preserved _ _, ?_, ?_, ?_,
      ?_, hw2bits, ?_⟩
  · simp [vertex_shader_attributes_patch, vertex_shader_varyings_patch,
      List.getElem?_map, hins]
  · exact hw2bits 30 (Or.inr rfl)
  · intro h
    exact patch_field_26_of_flag_unset _ h
  · intro h
    apply slot26_congr
    intro k hk
    rw [cross_w2_low _ _ (26 + k) (by omega)]
    rw [patch_field_26_of_flag_unset _ h]
  · intro h
    rw [patch_field_cross_of_flag_unset _ _ h]
    exact ⟨patch26_bit31 ins.w2, rfl⟩
  · intro j hj32 hj
    apply patch_field_26_outside_preserved
    omega
  · intro j hj hj2
    exact cross_w3_high _ _ j hj hj2

/-- C10 witness: evaluation at a one-instruction segment with all three
presence flags set. -/
theorem C10_presence_flags_preserved_witness :
    (([Instr.mk 3 0x44000000 0xC4000000 0x0000000C] : List Instr)[0]? =
      some (Instr.mk 3 0x44000000 0xC4000000 0x0000000C)) ∧
    ((vertex_shader_varyings_patch
        (vertex_shader_attributes_patch
          [Instr.mk 3 0x44000000 0xC4000000 0x0000000C]))[0]? =
      some { Instr.mk 3 0x44000000 0xC4000000 0x0000000C with
              w1 := patch_field_26 (Instr.mk 3 0x44000000 0xC4000000 0x0000000C).w1,
              w2 := (patch_field_cross
                (patch_field_26 (Instr.mk 3 0x44000000 0xC4000000 0x0000000C).w2)
                (Instr.mk 3 0x44000000 0xC4000000 0x0000000C).w3).1,
              w3 := (patch_field_cross
                (patch_field_26 (Instr.mk 3 0x44000000 0xC4000000 0x0000000C).w2)
                (Instr.mk 3 0x44000000 0xC4000000 0x0000000C).w3).2 } ∧
    flag26 (patch_field_26 (Instr.mk 3 0x44000000 0xC4000000 0x0000000C).w1) =
      flag26 (Instr.mk 3 0x44000000 0xC4000000 0x0000000C).w1 ∧
    flag26 ((patch_field_cross
        (patch_field_26 (Instr.mk 3 0x44000000 0xC4000000 0x0000000C).w2)
        (Instr.mk 3 0x44000000 0xC4000000 0x0000000C).w3).1) =
      flag26 (Instr.mk 3 0x44000000 0xC4000000 0x0000000C).w2 ∧
    ((patch_field_cross
        (patch_field_26 (Instr.mk 3 0x44000000 0xC4000000 0x0000000C).w2)
        (Instr.mk 3 0x44000000 0xC4000000 0x0000000C).w3).2).testBit 3 =
      (Instr.mk 3 0x44000000 0xC4000000 0x0000000C).w3.testBit 3 ∧
    (flag26 (Instr.mk 3 0x44000000 0xC4000000 0x0000000C).w1 = false →
      patch_field_26 (Instr.mk 3 0x44000000 0xC4000000 0x0000000C).w1 =
        (Instr.mk 3 0x44000000 0xC4000000 0x0000000C).w1) ∧
    (flag26 (Instr.mk 3 0x44000000 0xC4000000 0x0000000C).w2 = false →
      slot26 ((patch_field_cross
          (patch_field_26 (Instr.mk 3 0x44000000 0xC4000000 0x0000000C).w2)
          (Instr.mk 3 0x44000000 0xC4000000 0x0000000C).w3).1) =
        slot26 (Instr.mk 3 0x44000000 0xC4000000 0x0000000C).w2) ∧
    ((Instr.mk 3 0x44000000 0xC4000000 0x0000000C).w3.testBit 3 = false →
      ((patch_field_cross
          (patch_field_26 (Instr.mk 3 0x44000000 0xC4000000 0x0000000C).w2)
          (Instr.mk 3 0x44000000 0xC4000000 0x0000000C).w3).1).testBit 31 =
        (Instr.mk 3 0x44000000 0xC4000000 0x0000000C).w2.testBit 31 ∧
      (patch_field_cross
        (patch_field_26 (Instr.mk 3 0x44000000 0xC4000000 0x0000000C).w2)
        (Instr.mk 3 0x44000000 0xC4000000 0x0000000C).w3).2 =
        (Instr.mk 3 0x44000000 0xC4000000 0x0000000C).w3) ∧
    (∀ j, j < 32 → j < 26 ∨ 30 ≤ j →
      (patch_field_26 (Instr.mk 3 0x44000000 0xC4000000 0x0000000C).w1).testBit j =
        (Instr.mk 3 0x44000000 0xC4000000 0x0000000C).w1.testBit j) ∧
    (∀ j, j < 26 ∨ j = 30 →
      ((patch_field_cross
          (patch_field_26 (Instr.mk 3 0x44000000 0xC4000000 0x0000000C).w2)
          (Instr.mk 3 0x44000000 0xC4000000 0x0000000C).w3).1).testBit j =
        (Instr.mk 3 0x44000000 0xC4000000 0x0000000C).w2.testBit j) ∧
    (∀ j, 3 ≤ j → j < 32 →
      ((patch_field_cross
          (patch_field_26 (Instr.mk 3 0x44000000 0xC4000000 0x0000000C).w2)
          (Instr.mk 3 0x44000000 0xC4000000 0x0000000C).w3).2).testBit j =
        (Instr.mk 3 0x44000000 0xC4000000 0x0000000C).w3.testBit j)) :=
  ⟨by decide,
    C10_presence_flags_preserved [Instr.mk 3 0x44000000 0xC4000000 0x0000000C]
      (Instr.mk 3 0x44000000 0xC4000000 0x0000000C) 0 (by decide)⟩

/-- The 20-byte fixed record `struct stream_uniform_data` (program.c lines
106-119); every field is an unsigned byte or short, modelled as `Nat`. -/
structure StreamUniformData where
  type : Nat
  unknown01 : Nat
  element_count : Nat
  element_size : Nat
  entry_count : Nat
  stride : Nat
  unknown0A : Nat
  precision : Nat
  unknown0C : Nat
  unknown0E : Nat
  offset : Nat
  index : Nat
deriving Repr, DecidableEq, Inhabited

/-- The 16-byte fixed record `struct stream_attribute_data` (program.c lines
389-400): same layout as the uniform record without `unknown0E` and `index`. -/
structure StreamAttributeData where
  type : Nat
  unknown01 : Nat
  element_count : Nat
  element_size : Nat
  entry_count : Nat
  stride : Nat
  unknown0A : Nat
  precision : Nat
  unknown0C : Nat
  offset : Nat
deriving Repr, DecidableEq, Inhabited

/-- One tagged chunk of a metadata stream.  A stream is a strict concatenation
of chunks; the C parsers identify each chunk by its leading 4-byte tag and
advance by exactly the bytes consumed, so the byte cursor always sits on a
chunk boundary and the stream is modelled as a chunk list.  `udata`/`adata`
stand for the untagged fixed-size data records read in place. -/
inductive Chunk where
  | suni (size count space_needed : Int)
  | vuni (size : Int)
  | satt (size count : Int)
  | vatt (size : Int)
  | stri (size : Int) (string : String)
  | vini (size count : Nat) (data : List Nat)
  | udata (d : StreamUniformData)
  | adata (d : StreamAttributeData)
deriving Repr, DecidableEq

/-- `struct stream_uniform` (program.c lines 128-135) without the intrusive
`next` pointer: the entry-start size, the name, the fixed data record and the
optional initializer (size, count, data). -/
structure StreamUniform where
  start_size : Int
  string : String
  data : StreamUniformData
  init : Option (Nat × Nat × List Nat)
deriving Repr, DecidableEq

/-- `struct stream_attribute` (program.c lines 409-416) without the `next`
pointer.  The `init` field exists in the C struct and is tested by
`stream_attribute_table_to_symbols`, although the creation code never sets it. -/
structure StreamAttribute where
  start_size : Int
  string : String
  data : StreamAttributeData
  init : Option (Nat × Nat × List Nat)
deriving Repr, DecidableEq

/-- `struct stream_uniform_table` (program.c lines 137-141) with the
table-start fields inlined. -/
structure StreamUniformTable where
  size : Int
  count : Int
  space_needed : Int
  uniforms : List StreamUniform
deriving Repr, DecidableEq

/-- `struct stream_attribute_table` (program.c lines 418-422). -/
structure StreamAttributeTable where
  size : Int
  count : Int
  attributes : List StreamAttribute
deriving Repr, DecidableEq

/-- Outcome of a table-create call, distinguishing the C return sites:
`ok` (the table), `noStream` (`!stream || !size`), `allocFail` (a detected
allocation failure returning NULL), `corrupt` (the `corrupt` label), and
`nullDeref` for the undefined behaviour of writing through a failed per-entry
allocation that the misdirected `if (!table)` check let through. -/
inductive TableResult (α : Type) where
  | ok (t : α)
  | noStream
  | allocFail
  | corrupt
  | nullDeref
deriving Repr, DecidableEq

/-- `stream_uniform_start_read` (program.c lines 155-165): tag VUNI or a
zero-length read that the caller turns into `corrupt`. -/
def stream_uniform_start_read : List Chunk → Option (Int × List Chunk)
  | Chunk.vuni sz :: rest => some (sz, rest)
  | _ => none

/-- `stream_string_read` (program.c lines 167-177): tag STRI. -/
def stream_string_read : List Chunk → Option (String × List Chunk)
  | Chunk.stri _ s :: rest => some (s, rest)
  | _ => none

/-- `stream_uniform_data_read` (program.c lines 179-185): reads the untagged
20-byte record in place, never failing; bytes that are not a data record are
reinterpreted, modelled by the unspecified `default` record. -/
def stream_uniform_data_read : List Chunk → StreamUniformData × List Chunk
  | Chunk.udata d :: rest => (d, rest)
  | l => (default, l.tail)

/-- `stream_uniform_init_read` (program.c lines 187-198): tag VINI, or a
zero-length read leaving the cursor in place — a missing initializer is legal. -/
def stream_uniform_init_read :
    List Chunk → Option (Nat × Nat × List Nat) × List Chunk
  | Chunk.vini sz cnt d :: rest => (some (sz, cnt, d), rest)
  | l => (none, l)

/-- The entry loop of `stream_uniform_table_create` (program.c lines 239-272).
`tableNull` is the value of `!table` tested after the per-entry `calloc`
(line 241) — the source tests the table pointer, not the fresh `uniform`
pointer, so when the entry allocation fails the test passes and
`stream_uniform_start_read` writes through the null pointer (`nullDeref`). -/
def stream_uniform_loop (tableNull : Bool) :
    Nat → List Chunk → List Bool → List StreamUniform →
      TableResult (List StreamUniform)
  | 0, _, _, acc => .ok acc
  | n + 1, chunks, allocs, acc =>
    let entryAlloc := allocs.headD true
    if tableNull then .allocFail
    else if !entryAlloc then .nullDeref
    else
      match stream_uniform_start_read chunks with
      | none => .corrupt
      | some (ssz, rest1) =>
        match stream_string_read rest1 with
        | none => .corrupt
        | some (s, rest2) =>
          let dr := stream_uniform_data_read rest2
          let ir := stream_uniform_init_read dr.2
          stream_uniform_loop tableNull n ir.2 allocs.tail
            ({ start_size := ssz, string := s, data := dr.1, init := ir.1 } :: acc)

/-- `stream_uniform_table_create` (program.c lines 215-281).  The stream is
`none` for a NULL pointer; `allocs` feeds every `calloc` in call order (head =
the table allocation), an exhausted oracle meaning success.  Entries are pushed
onto the head of the list, as in the source. -/
def stream_uniform_table_create (stream : Option (List Chunk)) (size : Int)
    (allocs : List Bool) : TableResult StreamUniformTable :=
  match stream with
  | none => .noStream
  | some chunks =>
    if size = 0 then .noStream
    else if !(allocs.headD true) then .allocFail
    else
      match chunks with
      | Chunk.suni sz cnt spc :: rest =>
        match stream_uniform_loop false cnt.toNat rest allocs.tail [] with
        | .ok us => .ok { size := sz, count := cnt, space_needed := spc, uniforms := us }
        | .noStream => .noStream
        | .allocFail => .allocFail
        | .corrupt => .corrupt
        | .nullDeref => .nullDeref
      | _ => .corrupt

/-- `stream_attribute_start_read` (program.c lines 436-446): tag VATT. -/
def stream_attribute_start_read : List Chunk → Option (Int × List Chunk)
  | Chunk.vatt sz :: rest => some (sz, rest)
  | _ => none

/-- `stream_attribute_data_read` (program.c lines 448-454): the untagged
16-byte record, never failing. -/
def stream_attribute_data_read : List Chunk → StreamAttributeData × List Chunk
  | Chunk.adata d :: rest => (d, rest)
  | l => (default, l.tail)

/-- The entry loop of `stream_attribute_table_create` (program.c lines
495-525).  Identical to the uniform loop except for the tags and the 16-byte
record — and the absence of any initializer read: the entry is pushed directly
after the data chunk (lines 523-524), leaving `init` at its zeroed value. -/
def stream_attribute_loop (tableNull : Bool) :
    Nat → List Chunk → List Bool → List StreamAttribute →
      TableResult (List StreamAttribute)
  | 0, _, _, acc => .ok acc
  | n + 1, chunks, allocs, acc =>
    let entryAlloc := allocs.headD true
    if tableNull then .allocFail
    else if !entryAlloc then .nullDeref
    else
      match stream_attribute_start_read chunks with
      | none => .corrupt
      | some (ssz, rest1) =>
        match stream_string_read rest1 with
        | none => .corrupt
        | some (s, rest2) =>
          let dr := stream_attribute_data_read rest2
          stream_attribute_loop tableNull n dr.2 allocs.tail
            ({ start_size := ssz, string := s, data := dr.1, init := none } :: acc)

/-- `stream_attribute_table_create` (program.c lines 471-534). -/
def stream_attribute_table_create (stream : Option (List Chunk)) (size : Int)
    (allocs : List Bool) : TableResult StreamAttributeTable :=
  match stream with
  | none => .noStream
  | some chunks =>
    if size = 0 then .noStream
    else if !(allocs.headD true) then .allocFail
    else
      match chunks with
      | Chunk.satt sz cnt :: rest =>
        match stream_attribute_loop false cnt.toNat rest allocs.tail [] with
        | .ok as => .ok { size := sz, count := cnt, attributes := as }
        | .noStream => .noStream
        | .allocFail => .allocFail
        | .corrupt => .corrupt
        | .nullDeref => .nullDeref
      | _ => .corrupt

/-- Symbol kind passed to `symbol_create` (symbols.h). -/
inductive SymbolKind where
  | SYMBOL_UNIFORM
  | SYMBOL_ATTRIBUTE
deriving Repr, DecidableEq

/-- Modelled from the spec: `struct symbol` lives in symbols.c/h, which is not
under src/.  Per spec §3, a Symbol carries name, kind, total byte size,
element_count, entry_count, a resolved memory offset, and an optional
initializer buffer together with a has-initial-data flag (so a zero-length
initializer differs from no initializer). -/
structure symbol where
  name : String
  kind : SymbolKind
  size : Nat
  element_count : Nat
  entry_count : Nat
  data : Option (List Nat)
  flag : Bool
  offset : Nat
deriving Repr, DecidableEq

/-- Modelled from the spec: `symbol_create` (symbols.c, not under src/)
allocates and fills a Symbol from the arguments program.c passes it; the
trailing oracle bool stands for the allocation outcome.  The offset is filled
afterwards by the caller. -/
def symbol_create (name : String) (kind : SymbolKind)
    (size element_count entry_count : Nat) (data : Option (List Nat))
    (flag : Bool) (allocOk : Bool) : Option symbol :=
  if allocOk then
    some { name := name, kind := kind, size := size, element_count := element_count,
           entry_count := entry_count, data := data, flag := flag, offset := 0 }
  else none

/-- The per-entry body of `stream_uniform_table_to_symbols` (program.c lines
336-358): `symbol_create` with byte size `element_count * element_size`, the
initializer data and flag 1 when `uniform->init` is set (NULL and 0 otherwise),
then the verbatim offset assignment `symbols[i]->offset = uniform->data->offset`.
The loop runs while `i < count` and the list is non-empty; a failed creation
aborts the whole call (`goto error`), modelled by `none`. -/
def uniform_symbols_loop : List StreamUniform → Nat → List Bool → Option (List symbol)
  | _, 0, _ => some []
  | [], _ + 1, _ => some []
  | u :: us, n + 1, allocs =>
    let sym :=
      match u.init with
      | some ini =>
        symbol_create u.string SymbolKind.SYMBOL_UNIFORM
          (u.data.element_count * u.data.element_size)
          u.data.element_count u.data.entry_count (some ini.2.2) true (allocs.headD true)
      | none =>
        symbol_create u.string SymbolKind.SYMBOL_UNIFORM
          (u.data.element_count * u.data.element_size)
          u.data.element_count u.data.entry_count none false (allocs.headD true)
    match sym with
    | none => none
    | some s =>
      match uniform_symbols_loop us n allocs.tail with
      | none => none
      | some rest => some ({ s with offset := u.data.offset } :: rest)

/-- The in-out integers of `stream_uniform_table_to_symbols`: the returned
symbol array (or NULL) and the final values behind `count` and `size`. -/
structure SymbolsOut where
  symbols : Option (List symbol)
  count : Int
  size : Int
deriving Repr, DecidableEq

/-- `stream_uniform_table_to_symbols` (program.c lines 312-373).  `countIn` and
`sizeIn` are the values behind the out-pointers on entry (left untouched by the
early `!table` return); `arrAlloc` is the outcome of the `calloc` of the symbol
array; `allocs` feeds `symbol_create`.  The error label frees everything and
zeroes both outputs. -/
def stream_uniform_table_to_symbols (table : Option StreamUniformTable)
    (countIn sizeIn : Int) (arrAlloc : Bool) (allocs : List Bool) : SymbolsOut :=
  match table with
  | none => { symbols := none, count := countIn, size := sizeIn }
  | some t =>
    if t.count = 0 then
      { symbols := none, count := t.count, size := t.space_needed }
    else if !arrAlloc then { symbols := none, count := 0, size := 0 }
    else
      match uniform_symbols_loop t.uniforms t.count.toNat allocs with
      | none => { symbols := none, count := 0, size := 0 }
      | some syms =>
        { symbols := some syms, count := t.count, size := t.space_needed }

/-- The per-entry body of `stream_attribute_table_to_symbols` (program.c lines
584-606), identical to the uniform one with `SYMBOL_ATTRIBUTE`. -/
def attribute_symbols_loop : List StreamAttribute → Nat → List Bool → Option (List symbol)
  | _, 0, _ => some []
  | [], _ + 1, _ => some []
  | a :: as', n + 1, allocs =>
    let sym :=
      match a.init with
      | some ini =>
        symbol_create a.string SymbolKind.SYMBOL_ATTRIBUTE
          (a.data.element_count * a.data.element_size)
          a.data.element_count a.data.entry_count (some ini.2.2) true (allocs.headD true)
      | none =>
        symbol_create a.string SymbolKind.SYMBOL_ATTRIBUTE
          (a.data.element_count * a.data.element_size)
          a.data.element_count a.data.entry_count none false (allocs.headD true)
    match sym with
    | none => none
    | some s =>
      match attribute_symbols_loop as' n allocs.tail with
      | none => none
      | some rest => some ({ s with offset := a.data.offset } :: rest)

/-- Result of `stream_attribute_table_to_symbols`: symbols and the value behind
the single `count` out-pointer. -/
structure SymbolsOutA where
  symbols : Option (List symbol)
  count : Int
deriving Repr, DecidableEq

/-- `stream_attribute_table_to_symbols` (program.c lines 561-620): like the
uniform builder but with no `size` output. -/
def stream_attribute_table_to_symbols (table : Option StreamAttributeTable)
    (countIn : Int) (arrAlloc : Bool) (allocs : List Bool) : SymbolsOutA :=
  match table with
  | none => { symbols := none, count := countIn }
  | some t =>
    if t.count = 0 then { symbols := none, count := t.count }
    else if !arrAlloc then { symbols := none, count := 0 }
    else
      match attribute_symbols_loop t.attributes t.count.toNat allocs with
      | none => { symbols := none, count := 0 }
      | some syms => { symbols := some syms, count := t.count }

/-- The Symbol that a successful uniform builder step produces from one raw
entry (creation fields plus the immediate offset assignment). -/
def uniform_symbol_of (u : StreamUniform) : symbol :=
  { name := u.string, kind := SymbolKind.SYMBOL_UNIFORM,
    size := u.data.element_count * u.data.element_size,
    element_count := u.data.element_count, entry_count := u.data.entry_count,
    data := u.init.map (fun ini => ini.2.2), flag := u.init.isSome,
    offset := u.data.offset }

/-- The Symbol that a successful attribute builder step produces from one raw
entry. -/
def attribute_symbol_of (a : StreamAttribute) : symbol :=
  { name := a.string, kind := SymbolKind.SYMBOL_ATTRIBUTE,
    size := a.data.element_count * a.data.element_size,
    element_count := a.data.element_count, entry_count := a.data.entry_count,
    data := a.init.map (fun ini => ini.2.2), flag := a.init.isSome,
    offset := a.data.offset }

/-- The fields of `struct mali_shader_binary` (compiler.h, consumed by
program.c): the metadata streams (`none` for NULL), their sizes, and the
machine-code segment already split into instructions (`shader_size / 16`).
The external compiler producing it is out of scope; its outcome is passed to
the attach functions as an `Option` of this structure. -/
structure MaliShaderBinary where
  uniform_stream : Option (List Chunk)
  uniform_stream_size : Int
  attribute_stream : Option (List Chunk)
  attribute_stream_size : Int
  shader : List Instr
deriving Repr, DecidableEq

/-- The per-stage fields of `struct premali_state` written by the attach
functions, plus the command-stream builder slots that receive the shader. -/
structure PremaliState where
  vertex_uniforms : Option (List symbol)
  vertex_uniform_count : Int
  vertex_uniform_size : Int
  vertex_attributes : Option (List symbol)
  vertex_attribute_count : Int
  fragment_uniforms : Option (List symbol)
  fragment_uniform_count : Int
  fragment_uniform_size : Int
  vs_shader : Option (List Instr)
  plbu_shader : Option (List Instr)
deriving Repr, DecidableEq

/-- Modelled from the spec: `vs_info_attach_shader` (gp.c, not under src/)
hands the vertex machine-code segment to the downstream command-stream
builder; here it records the segment in the caller state. -/
def vs_info_attach_shader (state : PremaliState) (shader : List Instr) :
    PremaliState :=
  { state with vs_shader := some shader }

/-- Modelled from the spec: `plbu_info_attach_shader` (gp.c, not under src/)
hands the fragment machine-code segment to the command-stream builder. -/
def plbu_info_attach_shader (state : PremaliState) (shader : List Instr) :
    PremaliState :=
  { state with plbu_shader := some shader }

/-- The attribute-table and shader-patching tail of `vertex_shader_attach`
(program.c lines 758-777): build attribute symbols when the attribute table
parsed, then always patch the shader with both passes and attach it, returning
0.  A `nullDeref` from the parser is undefined behaviour (`none`). -/
def vertex_shader_attach_rest (state : PremaliState) (binary : MaliShaderBinary)
    (allocsA : List Bool) (arrA : Bool) (symsA : List Bool) :
    Option (Int × PremaliState) :=
  let patched :=
    vertex_shader_varyings_patch (vertex_shader_attributes_patch binary.shader)
  match stream_attribute_table_create binary.attribute_stream
      binary.attribute_stream_size allocsA with
  | .nullDeref => none
  | .ok t =>
    let out := stream_attribute_table_to_symbols (some t)
      state.vertex_attribute_count arrA symsA
    some (0, vs_info_attach_shader
      { state with vertex_attributes := out.symbols,
                   vertex_attribute_count := out.count } patched)
  | _ => some (0, vs_info_attach_shader state patched)

/-- `vertex_shader_attach` (program.c lines 736-780).  `compiled` is the
outcome of `premali_shader_compile` (`none` = compiler failure, which returns
-1 and leaves the state untouched).  A table that fails to parse is simply
skipped — the `if (uniform_table)` / `if (attribute_table)` guards — and the
function still patches, attaches and returns 0. -/
def vertex_shader_attach (state : PremaliState)
    (compiled : Option MaliShaderBinary)
    (allocsU : List Bool) (arrU : Bool) (symsU : List Bool)
    (allocsA : List Bool) (arrA : Bool) (symsA : List Bool) :
    Option (Int × PremaliState) :=
  match compiled with
  | none => some (-1, state)
  | some binary =>
    match stream_uniform_table_create binary.uniform_stream
        binary.uniform_stream_size allocsU with
    | .nullDeref => none
    | .ok t =>
      let out := stream_uniform_table_to_symbols (some t)
        state.vertex_uniform_count state.vertex_uniform_size arrU symsU
      vertex_shader_attach_rest
        { state with vertex_uniforms := out.symbols,
                     vertex_uniform_count := out.count,
                     vertex_uniform_size := out.size }
        binary allocsA arrA symsA
    | _ => vertex_shader_attach_rest state binary allocsA arrA symsA

/-- `fragment_shader_attach` (program.c lines 782-811): uniforms only, no
attribute parsing and no patching; the unpatched shader goes to the PLBU. -/
def fragment_shader_attach (state : PremaliState)
    (compiled : Option MaliShaderBinary)
    (allocsU : List Bool) (arrU : Bool) (symsU : List Bool) :
    Option (Int × PremaliState) :=
  match compiled with
  | none => some (-1, state)
  | some binary =>
    match stream_uniform_table_create binary.uniform_stream
        binary.uniform_stream_size allocsU with
    | .nullDeref => none
    | .ok t =>
      let out := stream_uniform_table_to_symbols (some t)
        state.fragment_uniform_count state.fragment_uniform_size arrU symsU
      some (0, plbu_info_attach_shader
        { state with fragment_uniforms := out.symbols,
                     fragment_uniform_count := out.count,
                     fragment_uniform_size := out.size } binary.shader)
    | _ => some (0, plbu_info_attach_shader state binary.shader)

/-- Serialization of one uniform entry into its chunk sequence: entry-start,
name string, fixed data record, and the initializer chunk when present. -/
def serialize_uniform_entry (u : StreamUniform) : List Chunk :=
  [Chunk.vuni u.start_size, Chunk.stri (u.string.length : Int) u.string,
    Chunk.udata u.data] ++
    (match u.init with
     | some ini => [Chunk.vini ini.1 ini.2.1 ini.2.2]
     | none => [])

/-- A well-formed uniform metadata stream: the table-start chunk followed by
the concatenated entries, the declared count being the number of entries. -/
def serialize_uniform_stream (tsz spc : Int) (us : List StreamUniform) : List Chunk :=
  Chunk.suni tsz (us.length : Int) spc :: us.flatMap serialize_uniform_entry

/-- Serialization of one attribute entry: entry-start, name string, data
record.  No initializer chunk: the attribute parser never reads one. -/
def serialize_attribute_entry (a : StreamAttribute) : List Chunk :=
  [Chunk.vatt a.start_size, Chunk.stri (a.string.length : Int) a.string,
    Chunk.adata a.data]

/-- A well-formed attribute metadata stream. -/
def serialize_attribute_stream (tsz : Int) (as' : List StreamAttribute) : List Chunk :=
  Chunk.satt tsz (as'.length : Int) :: as'.flatMap serialize_attribute_entry

lemma init_read_serialized (us : List StreamUniform) :
    stream_uniform_init_read (us.flatMap serialize_uniform_entry) =
      (none, us.flatMap serialize_uniform_entry) := by
  cases us with
  | nil => rfl
  | cons u us => rfl

lemma stream_uniform_loop_serialize (us : List StreamUniform) (acc : List StreamUniform) :
    stream_uniform_loop false us.length (us.flatMap serialize_uniform_entry) [] acc =
      .ok (us.reverse ++ acc) := by
  induction us generalizing acc with
  | nil => simp [stream_uniform_loop]
  | cons u us ih =>
    obtain ⟨usz, ustr, udat, uinit⟩ := u
    rw [show (StreamUniform.mk usz ustr udat uinit :: us).length = us.length + 1 from rfl,
        List.flatMap_cons]
    cases uinit with
    | none =>
      rw [show serialize_uniform_entry (StreamUniform.mk usz ustr udat none) =
            [Chunk.vuni usz, Chunk.stri (ustr.length : Int) ustr, Chunk.udata udat]
          from rfl]
      simp only [stream_uniform_loop, List.cons_append, List.nil_append,
        stream_uniform_start_read, stream_string_read, stream_uniform_data_read,
        List.headD_nil, Bool.not_true, if_false, Bool.false_eq_true,
        init_read_serialized, List.tail_nil]
      rw [ih]
      simp
    | some ini =>
      rw [show serialize_uniform_entry (StreamUniform.mk usz ustr udat (some ini)) =
            [Chunk.vuni usz, Chunk.stri (ustr.length : Int) ustr, Chunk.udata udat,
              Chunk.vini ini.1 ini.2.1 ini.2.2] from rfl]
      simp only [stream_uniform_loop, List.cons_append, List.nil_append,
        stream_uniform_start_read, stream_string_read, stream_uniform_data_read,
        stream_uniform_init_read, List.headD_nil, Bool.not_true, if_false,
        Bool.false_eq_true, List.tail_nil]
      rw [ih]
      simp

lemma stream_uniform_table_create_serialize (tsz spc : Int) (us : List StreamUniform)
    (size : Int) (hs : size ≠ 0) :
    stream_uniform_table_create (some (serialize_uniform_stream tsz spc us)) size [] =
      .ok { size := tsz, count := (us.length : Int), space_needed := spc,
            uniforms := us.reverse } := by
  simp only [stream_uniform_table_create, serialize_uniform_stream, hs, if_false,
    List.headD_nil, Bool.not_true, List.tail_nil]
  rw [Int.toNat_natCast, stream_uniform_loop_serialize us []]
  simp

lemma stream_attribute_loop_serialize (as' : List StreamAttribute)
    (acc : List StreamAttribute) :
    stream_attribute_loop false as'.length (as'.flatMap serialize_attribute_entry) [] acc =
      .ok ((as'.map fun a => { a with init := none }).reverse ++ acc) := by
  induction as' generalizing acc with
  | nil => simp [stream_attribute_loop]
  | cons a as' ih =>
    obtain ⟨asz, astr, adat, ainit⟩ := a
    rw [show (StreamAttribute.mk asz astr adat ainit :: as').length = as'.length + 1
        from rfl, List.flatMap_cons]
    rw [show serialize_attribute_entry (StreamAttribute.mk asz astr adat ainit) =
          [Chunk.vatt asz, Chunk.stri (astr.length : Int) astr, Chunk.adata adat]
        from rfl]
    simp only [stream_attribute_loop, List.cons_append, List.nil_append,
      stream_attribute_start_read, stream_string_read, stream_attribute_data_read,
      List.headD_nil, Bool.not_true, if_false, Bool.false_eq_true, List.tail_nil]
    rw [ih]
    simp

lemma stream_attribute_table_create_serialize (tsz : Int) (as' : List StreamAttribute)
    (size : Int) (hs : size ≠ 0) :
    stream_attribute_table_create (some (serialize_attribute_stream tsz as')) size [] =
      .ok { size := tsz, count := (as'.length : Int),
            attributes := (as'.map fun a => { a with init := none }).reverse } := by
  simp only [stream_attribute_table_create, serialize_attribute_stream, hs, if_false,
    List.headD_nil, Bool.not_true, List.tail_nil]
  rw [Int.toNat_natCast, stream_attribute_loop_serialize as' []]
  simp

lemma stream_uniform_loop_length (tn : Bool) (n : Nat) (chunks : List Chunk)
    (allocs : List Bool) (acc l : List StreamUniform)
    (h : stream_uniform_loop tn n chunks allocs acc = .ok l) :
    l.length = n + acc.length := by
  induction n generalizing chunks allocs acc with
  | zero =>
    simp only [stream_uniform_loop] at h
    cases h
    omega
  | succ n ih =>
    cases tn with
    | true => simp [stream_uniform_loop] at h
    | false =>
      cases hA : allocs.headD true with
      | false =>
        simp only [stream_uniform_loop, hA] at h
        simp at h
      | true =>
        simp only [stream_uniform_loop, hA, Bool.not_true, Bool.false_eq_true,
          if_false] at h
        split at h
        · cases h
        · split at h
          · cases h
          · have hrec := ih _ _ _ h
            simp only [List.length_cons] at hrec
            omega

lemma stream_attribute_loop_length (tn : Bool) (n : Nat) (chunks : List Chunk)
    (allocs : List Bool) (acc l : List StreamAttribute)
    (h : stream_attribute_loop tn n chunks allocs acc = .ok l) :
    l.length = n + acc.length := by
  induction n generalizing chunks allocs acc with
  | zero =>
    simp only [stream_attribute_loop] at h
    cases h
    omega
  | succ n ih =>
    cases tn with
    | true => simp [stream_attribute_loop] at h
    | false =>
      cases hA : allocs.headD true with
      | false =>
        simp only [stream_attribute_loop, hA] at h
        simp at h
      | true =>
        simp only [stream_attribute_loop, hA, Bool.not_true, Bool.false_eq_true,
          if_false] at h
        split at h
        · cases h
        · split at h
          · cases h
          · have hrec := ih _ _ _ h
            simp only [List.length_cons] at hrec
            omega

lemma stream_attribute_loop_init_none (tn : Bool) (n : Nat) (chunks : List Chunk)
    (allocs : List Bool) (acc l : List StreamAttribute)
    (h : stream_attribute_loop tn n chunks allocs acc = .ok l)
    (hacc : ∀ a ∈ acc, a.init = none) :
    ∀ a ∈ l, a.init = none := by
  induction n generalizing chunks allocs acc with
  | zero =>
    simp only [stream_attribute_loop] at h
    cases h
    exact hacc
  | succ n ih =>
    cases tn with
    | true => simp [stream_attribute_loop] at h
    | false =>
      cases hA : allocs.headD true with
      | false =>
        simp only [stream_attribute_loop, hA] at h
        simp at h
      | true =>
        simp only [stream_attribute_loop, hA, Bool.not_true, Bool.false_eq_true,
          if_false] at h
        split at h
        · cases h
        · split at h
          · cases h
          · refine ih _ _ _ h ?_
            intro a ha
            rcases List.mem_cons.mp ha with rfl | ha
            · rfl
            · exact hacc a ha

lemma uniform_symbols_loop_eq (us : List StreamUniform) (n : Nat) (allocs : List Bool)
    (syms : List symbol) (h : uniform_symbols_loop us n allocs = some syms) :
    syms = (us.take n).map uniform_symbol_of := by
  induction us generalizing n allocs syms with
  | nil =>
    cases n with
    | zero =>
      simp only [uniform_symbols_loop] at h
      cases h
      simp
    | succ n =>
      simp only [uniform_symbols_loop] at h
      cases h
      simp
  | cons u us ih =>
    cases n with
    | zero =>
      simp only [uniform_symbols_loop] at h
      cases h
      simp
    | succ n =>
      simp only [uniform_symbols_loop] at h
      cases hA : allocs.headD true with
      | false =>
        cases hinit : u.init with
        | none =>
          rw [hinit] at h
          simp only [symbol_create, hA, Bool.false_eq_true, if_false] at h
          cases h
        | some ini =>
          rw [hinit] at h
          simp only [symbol_create, hA, Bool.false_eq_true, if_false] at h
          cases h
      | true =>
        cases hinit : u.init with
        | none =>
          rw [hinit] at h
          simp only [symbol_create, hA, if_true] at h
          cases hrec : uniform_symbols_loop us n allocs.tail with
          | none => rw [hrec] at h; cases h
          | some rest =>
            rw [hrec] at h
            simp only [Option.some.injEq] at h
            subst h
            rw [ih _ _ _ hrec]
            simp [uniform_symbol_of, hinit]
        | some ini =>
          rw [hinit] at h
          simp only [symbol_create, hA, if_true] at h
          cases hrec : uniform_symbols_loop us n allocs.tail with
          | none => rw [hrec] at h; cases h
          | some rest =>
            rw [hrec] at h
            simp only [Option.some.injEq] at h
            subst h
            rw [ih _ _ _ hrec]
            simp [uniform_symbol_of, hinit]

lemma attribute_symbols_loop_eq (as' : List StreamAttribute) (n : Nat)
    (allocs : List Bool) (syms : List symbol)
    (h : attribute_symbols_loop as' n allocs = some syms) :
    syms = (as'.take n).map attribute_symbol_of := by
  induction as' generalizing n allocs syms with
  | nil =>
    cases n with
    | zero =>
      simp only [attribute_symbols_loop] at h
      cases h
      simp
    | succ n =>
      simp only [attribute_symbols_loop] at h
      cases h
      simp
  | cons a as' ih =>
    cases n with
    | zero =>
      simp only [attribute_symbols_loop] at h
      cases h
      simp
    | succ n =>
      simp only [attribute_symbols_loop] at h
      cases hA : allocs.headD true with
      | false =>
        cases hinit : a.init with
        | none =>
          rw [hinit] at h
          simp only [symbol_create, hA, Bool.false_eq_true, if_false] at h
          cases h
        | some ini =>
          rw [hinit] at h
          simp only [symbol_create, hA, Bool.false_eq_true, if_false] at h
          cases h
      | true =>
        cases hinit : a.init with
        | none =>
          rw [hinit] at h
          simp only [symbol_create, hA, if_true] at h
          cases hrec : attribute_symbols_loop as' n allocs.tail with
          | none => rw [hrec] at h; cases h
          | some rest =>
            rw [hrec] at h
            simp only [Option.some.injEq] at h
            subst h
            rw [ih _ _ _ hrec]
            simp [attribute_symbol_of, hinit]
        | some ini =>
          rw [hinit] at h
          simp only [symbol_create, hA, if_true] at h
          cases hrec : attribute_symbols_loop as' n allocs.tail with
          | none => rw [hrec] at h; cases h
          | some rest =>
            rw [hrec] at h
            simp only [Option.some.injEq] at h
            subst h
            rw [ih _ _ _ hrec]
            simp [attribute_symbol_of, hinit]

lemma uniform_symbols_loop_nil_allocs (us : List StreamUniform) (n : Nat) :
    uniform_symbols_loop us n [] =
      some ((us.take n).map uniform_symbol_of) := by
  induction us generalizing n with
  | nil => cases n <;> simp [uniform_symbols_loop]
  | cons u us ih =>
    cases n with
    | zero => simp [uniform_symbols_loop]
    | succ n =>
      simp only [uniform_symbols_loop]
      cases hinit : u.init with
      | none =>
        simp only [symbol_create, List.headD_nil, if_true, List.tail_nil, ih]
        simp [uniform_symbol_of, hinit]
      | some ini =>
        simp only [symbol_create, List.headD_nil, if_true, List.tail_nil, ih]
        simp [uniform_symbol_of, hinit]

lemma attribute_symbols_loop_nil_allocs (as' : List StreamAttribute) (n : Nat) :
    attribute_symbols_loop as' n [] =
      some ((as'.take n).map attribute_symbol_of) := by
  induction as' generalizing n with
  | nil => cases n <;> simp [attribute_symbols_loop]
  | cons a as' ih =>
    cases n with
    | zero => simp [attribute_symbols_loop]
    | succ n =>
      simp only [attribute_symbols_loop]
      cases hinit : a.init with
      | none =>
        simp only [symbol_create, List.headD_nil, if_true, List.tail_nil, ih]
        simp [attribute_symbol_of, hinit]
      | some ini =>
        simp only [symbol_create, List.headD_nil, if_true, List.tail_nil, ih]
        simp [attribute_symbol_of, hinit]

/-- C3: when a symbol-builder loop succeeds, the Symbol built from raw entry i
(uniform or attribute) has byte size element_count × element_size, carries the
entry's initializer buffer with the has-initial-data flag set exactly when the
entry carried an initializer chunk, and has its offset copied verbatim from the
entry's data record. -/
theorem C3_symbol_construction (us : List StreamUniform) (n : Nat)
    (allocs : List Bool) (syms : List symbol)
    (h : uniform_symbols_loop us n allocs = some syms)
    (as' : List StreamAttribute) (m : Nat) (allocs2 : List Bool)
    (asyms : List symbol)
    (h2 : attribute_symbols_loop as' m allocs2 = some asyms) :
    (∀ i u, i < n → us[i]? = some u →
      syms[i]? = some (uniform_symbol_of u) ∧
      (uniform_symbol_of u).size = u.data.element_count * u.data.element_size ∧
      (uniform_symbol_of u).flag = u.init.isSome ∧
      (uniform_symbol_of u).data = u.init.map (fun ini => ini.2.2) ∧
      (uniform_symbol_of u).offset = u.data.offset) ∧
    (∀ i a, i < m → as'[i]? = some a →
      asyms[i]? = some (attribute_symbol_of a) ∧
      (attribute_symbol_of a).size = a.data.element_count * a.data.element_size ∧
      (attribute_symbol_of a).flag = a.init.isSome ∧
      (attribute_symbol_of a).data = a.init.map (fun ini => ini.2.2) ∧
      (attribute_symbol_of a).offset = a.data.offset) := by
  constructor
  · intro i u hi hu
    refine ⟨?_, rfl, rfl, rfl, rfl⟩
    rw [uniform_symbols_loop_eq us n allocs syms h, List.getElem?_map,
        List.getElem?_take_of_lt hi, hu]
    rfl
  · intro i a hi ha
    refine ⟨?_, rfl, rfl, rfl, rfl⟩
    rw [attribute_symbols_loop_eq as' m allocs2 asyms h2, List.getElem?_map,
        List.getElem?_take_of_lt hi, ha]
    rfl

/-- C3 witness: one uniform entry with an initializer and one attribute entry
without, built with an all-success oracle. -/
theorem C3_symbol_construction_witness :
    (uniform_symbols_loop
        [StreamUniform.mk 8 "mvp" (StreamUniformData.mk 1 0 16 4 1 0 0 0 0 0 32 0)
          (some (12, 3, [1, 2, 3]))] 1 [] =
      some ((([StreamUniform.mk 8 "mvp"
          (StreamUniformData.mk 1 0 16 4 1 0 0 0 0 0 32 0)
          (some (12, 3, [1, 2, 3]))].take 1).map uniform_symbol_of))) ∧
    (attribute_symbols_loop
        [StreamAttribute.mk 4 "pos" (StreamAttributeData.mk 2 0 4 4 1 0 0 0 0 16)
          none] 1 [] =
      some ((([StreamAttribute.mk 4 "pos"
          (StreamAttributeData.mk 2 0 4 4 1 0 0 0 0 16) none].take 1).map
            attribute_symbol_of))) ∧
    (∀ i u, i < 1 →
      ([StreamUniform.mk 8 "mvp" (StreamUniformData.mk 1 0 16 4 1 0 0 0 0 0 32 0)
          (some (12, 3, [1, 2, 3]))] : List StreamUniform)[i]? = some u →
      (([StreamUniform.mk 8 "mvp" (StreamUniformData.mk 1 0 16 4 1 0 0 0 0 0 32 0)
          (some (12, 3, [1, 2, 3]))].take 1).map uniform_symbol_of)[i]? =
        some (uniform_symbol_of u) ∧
      (uniform_symbol_of u).size = u.data.element_count * u.data.element_size ∧
      (uniform_symbol_of u).flag = u.init.isSome ∧
      (uniform_symbol_of u).data = u.init.map (fun ini => ini.2.2) ∧
      (uniform_symbol_of u).offset = u.data.offset) ∧
    (∀ i a, i < 1 →
      ([StreamAttribute.mk 4 "pos" (StreamAttributeData.mk 2 0 4 4 1 0 0 0 0 16)
          none] : List StreamAttribute)[i]? = some a →
      (([StreamAttribute.mk 4 "pos" (StreamAttributeData.mk 2 0 4 4 1 0 0 0 0 16)
          none].take 1).map attribute_symbol_of)[i]? =
        some (attribute_symbol_of a) ∧
      (attribute_symbol_of a).size = a.data.element_count * a.data.element_size ∧
      (attribute_symbol_of a).flag = a.init.isSome ∧
      (attribute_symbol_of a).data = a.init.map (fun ini => ini.2.2) ∧
      (attribute_symbol_of a).offset = a.data.offset) := by
  have hmain := C3_symbol_construction
    [StreamUniform.mk 8 "mvp" (StreamUniformData.mk 1 0 16 4 1 0 0 0 0 0 32 0)
      (some (12, 3, [1, 2, 3]))] 1 []
    (([StreamUniform.mk 8 "mvp" (StreamUniformData.mk 1 0 16 4 1 0 0 0 0 0 32 0)
      (some (12, 3, [1, 2, 3]))].take 1).map uniform_symbol_of)
    (by decide)
    [StreamAttribute.mk 4 "pos" (StreamAttributeData.mk 2 0 4 4 1 0 0 0 0 16) none] 1 []
    (([StreamAttribute.mk 4 "pos" (StreamAttributeData.mk 2 0 4 4 1 0 0 0 0 16)
      none].take 1).map attribute_symbol_of)
    (by decide)
  exact ⟨by decide, by decide, hmain.1, hmain.2⟩

/-- C9: the table parsers push entries onto the head of a singly linked list,
so a successfully parsed serialized stream yields the entries in reverse, and
the symbol array converted from the table (in list order) is the complete
reversal of stream order — the last entry read from the stream becomes the
first symbol.  Attribute entries carry no initializer, hence the `init = none`
side condition on the attribute round trip. -/
theorem C9_symbol_order_reversed (tsz spc : Int) (us : List StreamUniform)
    (size : Int) (hs : size ≠ 0) (cIn sIn : Int)
    (atsz : Int) (as' : List StreamAttribute) (asize : Int) (has' : asize ≠ 0)
    (cInA : Int) (hA : ∀ a ∈ as', a.init = none) :
    stream_uniform_table_create (some (serialize_uniform_stream tsz spc us)) size [] =
      .ok { size := tsz, count := (us.length : Int), space_needed := spc,
            uniforms := us.reverse } ∧
    (us ≠ [] →
      stream_uniform_table_to_symbols
        (some { size := tsz, count := (us.length : Int), space_needed := spc,
                uniforms := us.reverse }) cIn sIn true [] =
      { symbols := some (us.reverse.map uniform_symbol_of),
        count := (us.length : Int), size := spc }) ∧
    (us.reverse.map uniform_symbol_of).head? = us.getLast?.map uniform_symbol_of ∧
    stream_attribute_table_create (some (serialize_attribute_stream atsz as'))
        asize [] =
      .ok { size := atsz, count := (as'.length : Int), attributes := as'.reverse } ∧
    (as' ≠ [] →
      stream_attribute_table_to_symbols
        (some { size := atsz, count := (as'.length : Int),
                attributes := as'.reverse }) cInA true [] =
      { symbols := some (as'.reverse.map attribute_symbol_of),
        count := (as'.length : Int) }) ∧
    (as'.reverse.map attribute_symbol_of).head? =
      as'.getLast?.map attribute_symbol_of := by
  have hmapid : as'.map (fun a => { a with init := none }) = as' := by
    rw [List.map_congr_left (g := id) ?_, List.map_id]
    intro a ha
    have := hA a ha
    cases a
    simp only [StreamAttribute.mk.injEq] at this ⊢
    simp [this]
  refine ⟨stream_uniform_table_create_serialize tsz spc us size hs, ?_, ?_, ?_, ?_, ?_⟩
  · intro hne
    have hlen : ¬ ((us.length : Int) = 0) := by
      simp [List.length_eq_zero]
      exact hne
    simp only [stream_uniform_table_to_symbols, hlen, if_false, Bool.not_true,
      Int.toNat_natCast]
    rw [show us.length = us.reverse.length from (List.length_reverse us).symm,
        uniform_symbols_loop_nil_allocs, List.take_length]
    simp
  · simp
  · rw [stream_attribute_table_create_serialize atsz as' asize has', hmapid]
  · intro hne
    have hlen : ¬ ((as'.length : Int) = 0) := by
      simp [List.length_eq_zero]
      exact hne
    simp only [stream_attribute_table_to_symbols, hlen, if_false, Bool.not_true,
      Int.toNat_natCast]
    rw [show as'.length = as'.reverse.length from (List.length_reverse as').symm,
        attribute_symbols_loop_nil_allocs, List.take_length]
    simp
  · simp

/-- C9 witness: a two-entry uniform stream and a two-entry attribute stream;
the second entry of each becomes the first symbol. -/
theorem C9_symbol_order_reversed_witness :
    (1 : Int) ≠ 0 ∧
    (∀ a ∈ ([StreamAttribute.mk 4 "p0" (StreamAttributeData.mk 2 0 4 4 1 0 0 0 0 0) none,
             StreamAttribute.mk 4 "p1" (StreamAttributeData.mk 2 0 2 4 1 0 0 0 0 16) none] :
        List StreamAttribute), a.init = none) ∧
    stream_uniform_table_create
        (some (serialize_uniform_stream 0 64
          [StreamUniform.mk 8 "u0" (StreamUniformData.mk 1 0 16 4 1 0 0 0 0 0 0 0) none,
           StreamUniform.mk 8 "u1" (StreamUniformData.mk 1 0 4 4 1 0 0 0 0 0 64 0)
             (some (4, 1, [9]))])) 1 [] =
      .ok { size := 0, count := 2, space_needed := 64,
            uniforms :=
              [StreamUniform.mk 8 "u0" (StreamUniformData.mk 1 0 16 4 1 0 0 0 0 0 0 0) none,
               StreamUniform.mk 8 "u1" (StreamUniformData.mk 1 0 4 4 1 0 0 0 0 0 64 0)
                 (some (4, 1, [9]))].reverse } ∧
    ([StreamUniform.mk 8 "u0" (StreamUniformData.mk 1 0 16 4 1 0 0 0 0 0 0 0) none,
      StreamUniform.mk 8 "u1" (StreamUniformData.mk 1 0 4 4 1 0 0 0 0 0 64 0)
        (some (4, 1, [9]))].reverse.map uniform_symbol_of).head? =
      ([StreamUniform.mk 8 "u0" (StreamUniformData.mk 1 0 16 4 1 0 0 0 0 0 0 0) none,
        StreamUniform.mk 8 "u1" (StreamUniformData.mk 1 0 4 4 1 0 0 0 0 0 64 0)
          (some (4, 1, [9]))].getLast?).map uniform_symbol_of ∧
    stream_attribute_table_create
        (some (serialize_attribute_stream 0
          [StreamAttribute.mk 4 "p0" (StreamAttributeData.mk 2 0 4 4 1 0 0 0 0 0) none,
           StreamAttribute.mk 4 "p1" (StreamAttributeData.mk 2 0 2 4 1 0 0 0 0 16) none]))
        1 [] =
      .ok { size := 0, count := 2,
            attributes :=
              [StreamAttribute.mk 4 "p0" (StreamAttributeData.mk 2 0 4 4 1 0 0 0 0 0) none,
               StreamAttribute.mk 4 "p1" (StreamAttributeData.mk 2 0 2 4 1 0 0 0 0 16)
                 none].reverse } := by
  have hmain := C9_symbol_order_reversed 0 64
    [StreamUniform.mk 8 "u0" (StreamUniformData.mk 1 0 16 4 1 0 0 0 0 0 0 0) none,
     StreamUniform.mk 8 "u1" (StreamUniformData.mk 1 0 4 4 1 0 0 0 0 0 64 0)
       (some (4, 1, [9]))] 1 (by decide) 0 0 0
    [StreamAttribute.mk 4 "p0" (StreamAttributeData.mk 2 0 4 4 1 0 0 0 0 0) none,
     StreamAttribute.mk 4 "p1" (StreamAttributeData.mk 2 0 2 4 1 0 0 0 0 16) none]
    1 (by decide) 0 (by decide)
  exact ⟨by decide, by decide, hmain.1, hmain.2.2.1, hmain.2.2.2.1⟩

lemma stream_uniform_start_read_none (c : Chunk) (rest : List Chunk)
    (hc : ∀ a, c ≠ Chunk.vuni a) : stream_uniform_start_read (c :: rest) = none := by
  cases c <;> first | exact absurd rfl (hc _) | rfl

lemma stream_attribute_start_read_none (c : Chunk) (rest : List Chunk)
    (hc : ∀ a, c ≠ Chunk.vatt a) : stream_attribute_start_read (c :: rest) = none := by
  cases c <;> first | exact absurd rfl (hc _) | rfl

lemma stream_string_read_none (c : Chunk) (rest : List Chunk)
    (hc : ∀ a b, c ≠ Chunk.stri a b) : stream_string_read (c :: rest) = none := by
  cases c <;> first | exact absurd rfl (hc _ _) | rfl

lemma stream_uniform_loop_corrupt_start (k : Nat) (chunks : List Chunk)
    (allocs : List Bool) (acc : List StreamUniform)
    (hA : allocs.headD true = true)
    (h : stream_uniform_start_read chunks = none) :
    stream_uniform_loop false (k + 1) chunks allocs acc = .corrupt := by
  rw [List.headD_eq_head?_getD] at hA
  simp [stream_uniform_loop, hA, h]

lemma stream_uniform_loop_corrupt_string (k : Nat) (chunks rest1 : List Chunk)
    (ssz : Int) (allocs : List Bool) (acc : List StreamUniform)
    (hA : allocs.headD true = true)
    (h1 : stream_uniform_start_read chunks = some (ssz, rest1))
    (h2 : stream_string_read rest1 = none) :
    stream_uniform_loop false (k + 1) chunks allocs acc = .corrupt := by
  rw [List.headD_eq_head?_getD] at hA
  simp [stream_uniform_loop, hA, h1, h2]

lemma stream_attribute_loop_corrupt_start (k : Nat) (chunks : List Chunk)
    (allocs : List Bool) (acc : List StreamAttribute)
    (hA : allocs.headD true = true)
    (h : stream_attribute_start_read chunks = none) :
    stream_attribute_loop false (k + 1) chunks allocs acc = .corrupt := by
  rw [List.headD_eq_head?_getD] at hA
  simp [stream_attribute_loop, hA, h]

lemma stream_attribute_loop_corrupt_string (k : Nat) (chunks rest1 : List Chunk)
    (ssz : Int) (allocs : List Bool) (acc : List StreamAttribute)
    (hA : allocs.headD true = true)
    (h1 : stream_attribute_start_read chunks = some (ssz, rest1))
    (h2 : stream_string_read rest1 = none) :
    stream_attribute_loop false (k + 1) chunks allocs acc = .corrupt := by
  rw [List.headD_eq_head?_getD] at hA
  simp [stream_attribute_loop, hA, h1, h2]

lemma stream_uniform_table_create_ok_length (stream : Option (List Chunk))
    (size : Int) (allocs : List Bool) (t : StreamUniformTable)
    (h : stream_uniform_table_create stream size allocs = .ok t) :
    t.uniforms.length = t.count.toNat := by
  cases stream with
  | none => simp [stream_uniform_table_create] at h
  | some chunks =>
    unfold stream_uniform_table_create at h
    dsimp only at h
    by_cases hs : size = 0
    · rw [if_pos hs] at h
      cases h
    · rw [if_neg hs] at h
      cases hA : allocs.headD true with
      | false =>
        rw [hA] at h
        simp only [Bool.not_false, if_true] at h
        cases h
      | true =>
        rw [hA] at h
        simp only [Bool.not_true, Bool.false_eq_true, if_false] at h
        split at h
        · rename_i sz cnt spc rest
          split at h
          · rename_i us heq
            cases h
            have := stream_uniform_loop_length false cnt.toNat rest allocs.tail [] us heq
            simpa using this
          · cases h
          · cases h
          · cases h
          · cases h
        · cases h

lemma stream_attribute_table_create_ok_length (stream : Option (List Chunk))
    (size : Int) (allocs : List Bool) (t : StreamAttributeTable)
    (h : stream_attribute_table_create stream size allocs = .ok t) :
    t.attributes.length = t.count.toNat := by
  cases stream with
  | none => simp [stream_attribute_table_create] at h
  | some chunks =>
    unfold stream_attribute_table_create at h
    dsimp only at h
    by_cases hs : size = 0
    · rw [if_pos hs] at h
      cases h
    · rw [if_neg hs] at h
      cases hA : allocs.headD true with
      | false =>
        rw [hA] at h
        simp only [Bool.not_false, if_true] at h
        cases h
      | true =>
        rw [hA] at h
        simp only [Bool.not_true, Bool.false_eq_true, if_false] at h
        split at h
        · rename_i sz cnt rest
          split at h
          · rename_i as'' heq
            cases h
            have := stream_attribute_loop_length false cnt.toNat rest allocs.tail [] as'' heq
            simpa using this
          · cases h
          · cases h
          · cases h
          · cases h
        · cases h

/-- C4: a required chunk whose tag does not match (table-start, entry-start, or
name-string, in either the uniform or the attribute parser) aborts parsing with
the corrupt outcome and no table — in particular a successfully returned table
is never partial: it carries exactly `count` entries; and the symbol-builder
error paths (array allocation failure or a failed symbol creation, for either
builder) return no symbols and reset the count (and size) outputs to zero. -/
theorem C4_corrupt_stream_handling :
    (∀ (c : Chunk) (rest : List Chunk) (size : Int), size ≠ 0 →
      (∀ a b d, c ≠ Chunk.suni a b d) →
      stream_uniform_table_create (some (c :: rest)) size [] = .corrupt) ∧
    (∀ (sz cnt spc : Int) (c : Chunk) (rest : List Chunk) (size : Int), size ≠ 0 →
      1 ≤ cnt → (∀ a, c ≠ Chunk.vuni a) →
      stream_uniform_table_create (some (Chunk.suni sz cnt spc :: c :: rest)) size [] =
        .corrupt) ∧
    (∀ (sz cnt spc vsz : Int) (c : Chunk) (rest : List Chunk) (size : Int), size ≠ 0 →
      1 ≤ cnt → (∀ a b, c ≠ Chunk.stri a b) →
      stream_uniform_table_create
        (some (Chunk.suni sz cnt spc :: Chunk.vuni vsz :: c :: rest)) size [] =
        .corrupt) ∧
    (∀ (c : Chunk) (rest : List Chunk) (size : Int), size ≠ 0 →
      (∀ a b, c ≠ Chunk.satt a b) →
      stream_attribute_table_create (some (c :: rest)) size [] = .corrupt) ∧
    (∀ (sz cnt : Int) (c : Chunk) (rest : List Chunk) (size : Int), size ≠ 0 →
      1 ≤ cnt → (∀ a, c ≠ Chunk.vatt a) →
      stream_attribute_table_create (some (Chunk.satt sz cnt :: c :: rest)) size [] =
        .corrupt) ∧
    (∀ (sz cnt vsz : Int) (c : Chunk) (rest : List Chunk) (size : Int), size ≠ 0 →
      1 ≤ cnt → (∀ a b, c ≠ Chunk.stri a b) →
      stream_attribute_table_create
        (some (Chunk.satt sz cnt :: Chunk.vatt vsz :: c :: rest)) size [] =
        .corrupt) ∧
    (∀ (stream : Option (List Chunk)) (size : Int) (allocs : List Bool)
        (t : StreamUniformTable),
      stream_uniform_table_create stream size allocs = .ok t →
      t.uniforms.length = t.count.toNat) ∧
    (∀ (stream : Option (List Chunk)) (size : Int) (allocs : List Bool)
        (t : StreamAttributeTable),
      stream_attribute_table_create stream size allocs = .ok t →
      t.attributes.length = t.count.toNat) ∧
    (∀ (t : StreamUniformTable) (cIn sIn : Int) (allocs : List Bool), t.count ≠ 0 →
      stream_uniform_table_to_symbols (some t) cIn sIn false allocs =
        { symbols := none, count := 0, size := 0 }) ∧
    (∀ (t : StreamUniformTable) (cIn sIn : Int) (arr : Bool) (allocs : List Bool),
      t.count ≠ 0 → uniform_symbols_loop t.uniforms t.count.toNat allocs = none →
      stream_uniform_table_to_symbols (some t) cIn sIn arr allocs =
        { symbols := none, count := 0, size := 0 }) ∧
    (∀ (t : StreamAttributeTable) (cIn : Int) (allocs : List Bool), t.count ≠ 0 →
      stream_attribute_table_to_symbols (some t) cIn false allocs =
        { symbols := none, count := 0 }) ∧
    (∀ (t : StreamAttributeTable) (cIn : Int) (arr : Bool) (allocs : List Bool),
      t.count ≠ 0 → attribute_symbols_loop t.attributes t.count.toNat allocs = none →
      stream_attribute_table_to_symbols (some t) cIn arr allocs =
        { symbols := none, count := 0 }) := by
  refine ⟨?_, ?_, ?_, ?_, ?_, ?_,
    stream_uniform_table_create_ok_length, stream_attribute_table_create_ok_length,
    ?_, ?_, ?_, ?_⟩
  · intro c rest size hs hc
    cases c <;> first
      | exact absurd rfl (hc _ _ _)
      | simp [stream_uniform_table_create, hs]
  · intro sz cnt spc c rest size hs hcnt hc
    obtain ⟨k, hk⟩ : ∃ k, cnt.toNat = k + 1 := ⟨cnt.toNat - 1, by omega⟩
    simp only [stream_uniform_table_create, hs, if_false, List.headD_nil,
      Bool.not_true, Bool.false_eq_true, List.tail_nil]
    rw [hk, stream_uniform_loop_corrupt_start k _ [] [] (by simp)
      (stream_uniform_start_read_none c rest hc)]
  · intro sz cnt spc vsz c rest size hs hcnt hc
    obtain ⟨k, hk⟩ : ∃ k, cnt.toNat = k + 1 := ⟨cnt.toNat - 1, by omega⟩
    simp only [stream_uniform_table_create, hs, if_false, List.headD_nil,
      Bool.not_true, Bool.false_eq_true, List.tail_nil]
    rw [hk, stream_uniform_loop_corrupt_string k (Chunk.vuni vsz :: c :: rest)
      (c :: rest) vsz [] [] (by simp) rfl (stream_string_read_none c rest hc)]
  · intro c rest size hs hc
    cases c <;> first
      | exact absurd rfl (hc _ _)
      | simp [stream_attribute_table_create, hs]
  · intro sz cnt c rest size hs hcnt hc
    obtain ⟨k, hk⟩ : ∃ k, cnt.toNat = k + 1 := ⟨cnt.toNat - 1, by omega⟩
    simp only [stream_attribute_table_create, hs, if_false, List.headD_nil,
      Bool.not_true, Bool.false_eq_true, List.tail_nil]
    rw [hk, stream_attribute_loop_corrupt_start k _ [] [] (by simp)
      (stream_attribute_start_read_none c rest hc)]
  · intro sz cnt vsz c rest size hs hcnt hc
    obtain ⟨k, hk⟩ : ∃ k, cnt.toNat = k + 1 := ⟨cnt.toNat - 1, by omega⟩
    simp only [stream_attribute_table_create, hs, if_false, List.headD_nil,
      Bool.not_true, Bool.false_eq_true, List.tail_nil]
    rw [hk, stream_attribute_loop_corrupt_string k (Chunk.vatt vsz :: c :: rest)
      (c :: rest) vsz [] [] (by simp) rfl (stream_string_read_none c rest hc)]
  · intro t cIn sIn allocs hcnt
    simp [stream_uniform_table_to_symbols, hcnt]
  · intro t cIn sIn arr allocs hcnt hloop
    cases arr with
    | false => simp [stream_uniform_table_to_symbols, hcnt]
    | true => simp [stream_uniform_table_to_symbols, hcnt, hloop]
  · intro t cIn allocs hcnt
    simp [stream_attribute_table_to_symbols, hcnt]
  · intro t cIn arr allocs hcnt hloop
    cases arr with
    | false => simp [stream_attribute_table_to_symbols, hcnt]
    | true => simp [stream_attribute_table_to_symbols, hcnt, hloop]

/-- C4 witness: each corrupt case of both parsers exercised on a tiny concrete
stream, plus the no-partial-table and both builders' error paths on concrete
tables. -/
theorem C4_corrupt_stream_handling_witness :
    stream_uniform_table_create (some [Chunk.vini 0 0 []]) 1 [] = .corrupt ∧
    stream_uniform_table_create (some [Chunk.suni 0 1 0, Chunk.stri 1 "x"]) 1 [] =
      .corrupt ∧
    stream_uniform_table_create
        (some [Chunk.suni 0 1 0, Chunk.vuni 0, Chunk.vuni 0]) 1 [] = .corrupt ∧
    stream_attribute_table_create (some [Chunk.vini 0 0 []]) 1 [] = .corrupt ∧
    stream_attribute_table_create (some [Chunk.satt 0 1, Chunk.stri 1 "x"]) 1 [] =
      .corrupt ∧
    stream_attribute_table_create
        (some [Chunk.satt 0 1, Chunk.vatt 0, Chunk.vatt 0]) 1 [] = .corrupt ∧
    (([] : List StreamUniform).length = (0 : Int).toNat) ∧
    (([] : List StreamAttribute).length = (0 : Int).toNat) ∧
    stream_uniform_table_to_symbols
        (some { size := 0, count := 1, space_needed := 5, uniforms := [] }) 9 9
        false [] = { symbols := none, count := 0, size := 0 } ∧
    stream_uniform_table_to_symbols
        (some { size := 0, count := 1, space_needed := 5,
                uniforms := [StreamUniform.mk 0 "u"
                  (StreamUniformData.mk 0 0 1 1 1 0 0 0 0 0 0 0) none] }) 9 9
        true [false] = { symbols := none, count := 0, size := 0 } ∧
    stream_attribute_table_to_symbols
        (some { size := 0, count := 1, attributes := [] }) 9 false [] =
      { symbols := none, count := 0 } ∧
    stream_attribute_table_to_symbols
        (some { size := 0, count := 1,
                attributes := [StreamAttribute.mk 0 "a"
                  (StreamAttributeData.mk 0 0 1 1 1 0 0 0 0 0) none] }) 9
        true [false] = { symbols := none, count := 0 } := by
  refine ⟨?_, ?_, ?_, ?_, ?_, ?_, ?_, ?_, ?_, ?_, ?_, ?_⟩
  · exact C4_corrupt_stream_handling.1 (Chunk.vini 0 0 []) [] 1 (by decide)
      (by intro a b d h; exact Chunk.noConfusion h)
  · exact C4_corrupt_stream_handling.2.1 0 1 0 (Chunk.stri 1 "x") [] 1 (by decide)
      (by decide) (by intro a h; exact Chunk.noConfusion h)
  · exact C4_corrupt_stream_handling.2.2.1 0 1 0 0 (Chunk.vuni 0) [] 1 (by decide)
      (by decide) (by intro a b h; exact Chunk.noConfusion h)
  · exact C4_corrupt_stream_handling.2.2.2.1 (Chunk.vini 0 0 []) [] 1 (by decide)
      (by intro a b h; exact Chunk.noConfusion h)
  · exact C4_corrupt_stream_handling.2.2.2.2.1 0 1 (Chunk.stri 1 "x") [] 1
      (by decide) (by decide) (by intro a h; exact Chunk.noConfusion h)
  · exact C4_corrupt_stream_handling.2.2.2.2.2.1 0 1 0 (Chunk.vatt 0) [] 1
      (by decide) (by decide) (by intro a b h; exact Chunk.noConfusion h)
  · exact C4_corrupt_stream_handling.2.2.2.2.2.2.1 (some [Chunk.suni 7 0 3]) 1 []
      { size := 7, count := 0, space_needed := 3, uniforms := [] } (by decide)
  · exact C4_corrupt_stream_handling.2.2.2.2.2.2.2.1 (some [Chunk.satt 7 0]) 1 []
      { size := 7, count := 0, attributes := [] } (by decide)
  · exact C4_corrupt_stream_handling.2.2.2.2.2.2.2.2.1
      { size := 0, count := 1, space_needed := 5, uniforms := [] } 9 9 []
      (by decide)
  · exact C4_corrupt_stream_handling.2.2.2.2.2.2.2.2.2.1
      { size := 0, count := 1, space_needed := 5,
        uniforms := [StreamUniform.mk 0 "u"
          (StreamUniformData.mk 0 0 1 1 1 0 0 0 0 0 0 0) none] } 9 9 true [false]
      (by decide) (by decide)
  · exact C4_corrupt_stream_handling.2.2.2.2.2.2.2.2.2.2.1
      { size := 0, count := 1, attributes := [] } 9 [] (by decide)
  · exact C4_corrupt_stream_handling.2.2.2.2.2.2.2.2.2.2.2
      { size := 0, count := 1,
        attributes := [StreamAttribute.mk 0 "a"
          (StreamAttributeData.mk 0 0 1 1 1 0 0 0 0 0) none] } 9 true [false]
      (by decide) (by decide)

lemma stream_attribute_table_create_ok_init_none (stream : Option (List Chunk))
    (size : Int) (allocs : List Bool) (t : StreamAttributeTable)
    (h : stream_attribute_table_create stream size allocs = .ok t) :
    ∀ a ∈ t.attributes, a.init = none := by
  cases stream with
  | none => simp [stream_attribute_table_create] at h
  | some chunks =>
    unfold stream_attribute_table_create at h
    dsimp only at h
    by_cases hs : size = 0
    · rw [if_pos hs] at h
      cases h
    · rw [if_neg hs] at h
      cases hA : allocs.headD true with
      | false =>
        rw [hA] at h
        simp only [Bool.not_false, if_true] at h
        cases h
      | true =>
        rw [hA] at h
        simp only [Bool.not_true, Bool.false_eq_true, if_false] at h
        split at h
        · rename_i sz cnt rest
          split at h
          · rename_i as'' heq
            cases h
            exact stream_attribute_loop_init_none false cnt.toNat rest allocs.tail
              [] as'' heq (by intro a ha; cases ha)
          · cases h
          · cases h
          · cases h
          · cases h
        · cases h

/-- C6 counterexample: an attribute stream containing an initializer chunk
after a valid entry.  The parse succeeds, but the entry's `init` is `none` —
the parser never attempted to read the VINI chunk — and the resulting Symbol
does not carry the initializer (flag false), while the uniform parser on the
exactly analogous stream does attach the initializer.  This refutes the claim
that the attribute parser attempts an optional initializer read whose presence
is carried into the Symbol. -/
theorem C6_counterexample :
    stream_attribute_table_create
        (some [Chunk.satt 8 1, Chunk.vatt 4, Chunk.stri 3 "pos",
          Chunk.adata (StreamAttributeData.mk 2 0 4 4 1 0 0 0 0 16),
          Chunk.vini 4 1 [7]]) 1 [] =
      .ok { size := 8, count := 1,
            attributes := [StreamAttribute.mk 4 "pos"
              (StreamAttributeData.mk 2 0 4 4 1 0 0 0 0 16) none] } ∧
    (stream_attribute_table_to_symbols
        (some { size := 8, count := 1,
                attributes := [StreamAttribute.mk 4 "pos"
                  (StreamAttributeData.mk 2 0 4 4 1 0 0 0 0 16) none] })
        0 true []).symbols =
      some [attribute_symbol_of (StreamAttribute.mk 4 "pos"
        (StreamAttributeData.mk 2 0 4 4 1 0 0 0 0 16) none)] ∧
    (attribute_symbol_of (StreamAttribute.mk 4 "pos"
        (StreamAttributeData.mk 2 0 4 4 1 0 0 0 0 16) none)).flag = false ∧
    stream_uniform_table_create
        (some [Chunk.suni 8 1 0, Chunk.vuni 4, Chunk.stri 3 "pos",
          Chunk.udata (StreamUniformData.mk 2 0 4 4 1 0 0 0 0 0 16 0),
          Chunk.vini 4 1 [7]]) 1 [] =
      .ok { size := 8, count := 1, space_needed := 0,
            uniforms := [StreamUniform.mk 4 "pos"
              (StreamUniformData.mk 2 0 4 4 1 0 0 0 0 0 16 0)
              (some (4, 1, [7]))] } := by
  refine ⟨by decide, by decide, by decide, by decide⟩

/-- C6 amended: the attribute table parser performs the same per-entry chunk
sequence as the uniform parser — entry-start, name-string, 16-byte data record
— but never attempts to read an initializer chunk; every entry of a
successfully parsed attribute table has `init = none`, and the attribute
Symbols built from it never carry initializer data. -/
theorem C6_amended_attribute_parsing (tsz : Int) (as' : List StreamAttribute)
    (size : Int) (hs : size ≠ 0)
    (stream : Option (List Chunk)) (size2 : Int) (allocs : List Bool)
    (t : StreamAttributeTable)
    (hok : stream_attribute_table_create stream size2 allocs = .ok t)
    (n : Nat) (allocs2 : List Bool) (syms : List symbol)
    (hsy : attribute_symbols_loop t.attributes n allocs2 = some syms) :
    stream_attribute_table_create (some (serialize_attribute_stream tsz as'))
        size [] =
      .ok { size := tsz, count := (as'.length : Int),
            attributes := (as'.map fun a => { a with init := none }).reverse } ∧
    (∀ a ∈ t.attributes, a.init = none) ∧
    (∀ s ∈ syms, s.flag = false ∧ s.data = none) := by
  refine ⟨stream_attribute_table_create_serialize tsz as' size hs,
    stream_attribute_table_create_ok_init_none stream size2 allocs t hok, ?_⟩
  intro s hsin
  rw [attribute_symbols_loop_eq t.attributes n allocs2 syms hsy] at hsin
  obtain ⟨a, ha, rfl⟩ := List.mem_map.mp hsin
  have hanone : a.init = none :=
    stream_attribute_table_create_ok_init_none stream size2 allocs t hok a
      (List.mem_of_mem_take ha)
  simp [attribute_symbol_of, hanone]

/-- C6 amended witness: a one-entry attribute stream round trip, a concrete
parsed table, and its symbols. -/
theorem C6_amended_attribute_parsing_witness :
    (1 : Int) ≠ 0 ∧
    stream_attribute_table_create
        (some [Chunk.satt 8 1, Chunk.vatt 4, Chunk.stri 3 "pos",
          Chunk.adata (StreamAttributeData.mk 2 0 4 4 1 0 0 0 0 16)]) 1 [] =
      .ok { size := 8, count := 1,
            attributes := [StreamAttribute.mk 4 "pos"
              (StreamAttributeData.mk 2 0 4 4 1 0 0 0 0 16) none] } ∧
    attribute_symbols_loop
        [StreamAttribute.mk 4 "pos" (StreamAttributeData.mk 2 0 4 4 1 0 0 0 0 16)
          none] 1 [] =
      some [attribute_symbol_of (StreamAttribute.mk 4 "pos"
        (StreamAttributeData.mk 2 0 4 4 1 0 0 0 0 16) none)] ∧
    (stream_attribute_table_create
        (some (serialize_attribute_stream 8
          [StreamAttribute.mk 4 "pos" (StreamAttributeData.mk 2 0 4 4 1 0 0 0 0 16)
            none])) 1 [] =
      .ok { size := 8, count := 1,
            attributes := ([StreamAttribute.mk 4 "pos"
              (StreamAttributeData.mk 2 0 4 4 1 0 0 0 0 16) none].map
                fun a => { a with init := none }).reverse } ∧
    (∀ a ∈ ({ size := 8, count := 1,
              attributes := [StreamAttribute.mk 4 "pos"
                (StreamAttributeData.mk 2 0 4 4 1 0 0 0 0 16) none] } :
          StreamAttributeTable).attributes, a.init = none) ∧
    (∀ s ∈ [attribute_symbol_of (StreamAttribute.mk 4 "pos"
        (StreamAttributeData.mk 2 0 4 4 1 0 0 0 0 16) none)],
      s.flag = false ∧ s.data = none)) := by
  refine ⟨by decide, by decide, by decide, ?_⟩
  exact C6_amended_attribute_parsing 8
    [StreamAttribute.mk 4 "pos" (StreamAttributeData.mk 2 0 4 4 1 0 0 0 0 16) none]
    1 (by decide)
    (some [Chunk.satt 8 1, Chunk.vatt 4, Chunk.stri 3 "pos",
      Chunk.adata (StreamAttributeData.mk 2 0 4 4 1 0 0 0 0 16)]) 1 []
    { size := 8, count := 1,
      attributes := [StreamAttribute.mk 4 "pos"
        (StreamAttributeData.mk 2 0 4 4 1 0 0 0 0 16) none] }
    (by decide) 1 []
    [attribute_symbol_of (StreamAttribute.mk 4 "pos"
      (StreamAttributeData.mk 2 0 4 4 1 0 0 0 0 16) none)]
    (by decide)

/-- C8: evaluation at the failing input.  On a well-formed one-entry stream
with the table allocation succeeding and the per-entry allocation failing
(oracle [true, false]), both parsers dereference the failed allocation
(`nullDeref`) instead of detecting it and failing cleanly: the guard after the
per-entry `calloc` tests `table` — non-null at that point — rather than the
fresh entry pointer, so the failure goes undetected and the `oom` cleanup path
never runs. -/
theorem C8_entry_alloc_check_bug :
    stream_uniform_table_create
        (some [Chunk.suni 16 1 8, Chunk.vuni 8, Chunk.stri 3 "mvp",
          Chunk.udata (StreamUniformData.mk 1 0 16 4 1 0 0 0 0 0 0 0)]) 1
        [true, false] = .nullDeref ∧
    stream_attribute_table_create
        (some [Chunk.satt 12 1, Chunk.vatt 8, Chunk.stri 3 "pos",
          Chunk.adata (StreamAttributeData.mk 2 0 4 4 1 0 0 0 0 0)]) 1
        [true, false] = .nullDeref := by
  refine ⟨by decide, by decide⟩

lemma vertex_shader_attach_rest_fragment_untouched (st : PremaliState)
    (binary : MaliShaderBinary) (aA : List Bool) (arrA : Bool) (sA : List Bool)
    (r : Int) (s2 : PremaliState)
    (h : vertex_shader_attach_rest st binary aA arrA sA = some (r, s2)) :
    s2.fragment_uniforms = st.fragment_uniforms ∧
    s2.fragment_uniform_count = st.fragment_uniform_count ∧
    s2.fragment_uniform_size = st.fragment_uniform_size ∧
    s2.plbu_shader = st.plbu_shader := by
  unfold vertex_shader_attach_rest at h
  split at h
  · cases h
  · rename_i t heq
    simp only [Option.some.injEq, Prod.mk.injEq] at h
    obtain ⟨-, rfl⟩ := h
    exact ⟨rfl, rfl, rfl, rfl⟩
  · simp only [Option.some.injEq, Prod.mk.injEq] at h
    obtain ⟨-, rfl⟩ := h
    exact ⟨rfl, rfl, rfl, rfl⟩

/-- C5 counterexample: with the compiler succeeding but the uniform metadata
stream corrupt (its first tag is not SUNI), `vertex_shader_attach` does not
abort: it returns 0, leaves the uniform symbols unset, and still patches and
attaches the shader — the stage is attached, contradicting the claim that a
corrupt stream aborts the stage link with a failure result. -/
theorem C5_counterexample :
    stream_uniform_table_create (some [Chunk.vini 0 0 []]) 1 [] = .corrupt ∧
    vertex_shader_attach (PremaliState.mk none 0 0 none 0 none 0 0 none none)
        (some (MaliShaderBinary.mk (some [Chunk.vini 0 0 []]) 1 none 0 []))
        [] true [] [] true [] =
      some (0, PremaliState.mk none 0 0 none 0 none 0 0 (some []) none) ∧
    ((0 : Int) = -1 → False) := by
  refine ⟨by decide, by decide, by decide⟩

/-- C5 amended: only a compiler failure aborts a stage attach (returning -1
with the state untouched); a corrupt metadata stream merely causes that
stream's symbol table to be skipped — the attach continues, patches (vertex)
and attaches the shader, and returns 0.  The fragment-stage fields are never
touched by a vertex attach, so previously linked stages are unaffected. -/
theorem C5_amended_attach_behaviour (state : PremaliState) :
    (∀ aU arrU sU aA arrA sA,
      vertex_shader_attach state none aU arrU sU aA arrA sA = some (-1, state)) ∧
    (∀ aU arrU sU,
      fragment_shader_attach state none aU arrU sU = some (-1, state)) ∧
    (∀ binary aU arrU sU aA arrA sA,
      stream_uniform_table_create binary.uniform_stream
          binary.uniform_stream_size aU = .corrupt →
      stream_attribute_table_create binary.attribute_stream
          binary.attribute_stream_size aA = .corrupt →
      vertex_shader_attach state (some binary) aU arrU sU aA arrA sA =
        some (0, vs_info_attach_shader state
          (vertex_shader_varyings_patch
            (vertex_shader_attributes_patch binary.shader)))) ∧
    (∀ binary aU arrU sU,
      stream_uniform_table_create binary.uniform_stream
          binary.uniform_stream_size aU = .corrupt →
      fragment_shader_attach state (some binary) aU arrU sU =
        some (0, plbu_info_attach_shader state binary.shader)) ∧
    (∀ compiled aU arrU sU aA arrA sA r s2,
      vertex_shader_attach state compiled aU arrU sU aA arrA sA = some (r, s2) →
      s2.fragment_uniforms = state.fragment_uniforms ∧
      s2.fragment_uniform_count = state.fragment_uniform_count ∧
      s2.fragment_uniform_size = state.fragment_uniform_size ∧
      s2.plbu_shader = state.plbu_shader) := by
  refine ⟨fun aU arrU sU aA arrA sA => rfl, fun aU arrU sU => rfl, ?_, ?_, ?_⟩
  · intro binary aU arrU sU aA arrA sA hU ha
    unfold vertex_shader_attach
    dsimp only
    rw [hU]
    dsimp only
    unfold vertex_shader_attach_rest
    dsimp only
    rw [ha]
  · intro binary aU arrU sU hU
    unfold fragment_shader_attach
    dsimp only
    rw [hU]
  · intro compiled aU arrU sU aA arrA sA r s2 h
    cases compiled with
    | none =>
      simp only [vertex_shader_attach, Option.some.injEq, Prod.mk.injEq] at h
      obtain ⟨-, rfl⟩ := h
      exact ⟨rfl, rfl, rfl, rfl⟩
    | some binary =>
      unfold vertex_shader_attach at h
      dsimp only at h
      split at h
      · cases h
      · rename_i t heq
        have := vertex_shader_attach_rest_fragment_untouched _ binary aA arrA sA
          r s2 h
        simpa using this
      · exact vertex_shader_attach_rest_fragment_untouched state binary aA arrA sA
          r s2 h

/-- C5 amended witness: concrete evaluation at an empty state, a corrupt
uniform stream and a corrupt attribute stream. -/
theorem C5_amended_attach_behaviour_witness :
    vertex_shader_attach (PremaliState.mk none 0 0 none 0 none 0 0 none none)
        none [] true [] [] true [] =
      some (-1, PremaliState.mk none 0 0 none 0 none 0 0 none none) ∧
    (stream_uniform_table_create
        ((MaliShaderBinary.mk (some [Chunk.vini 0 0 []]) 1
          (some [Chunk.vini 0 0 []]) 1 []).uniform_stream)
        ((MaliShaderBinary.mk (some [Chunk.vini 0 0 []]) 1
          (some [Chunk.vini 0 0 []]) 1 []).uniform_stream_size) [] = .corrupt) ∧
    vertex_shader_attach (PremaliState.mk none 0 0 none 0 none 0 0 none none)
        (some (MaliShaderBinary.mk (some [Chunk.vini 0 0 []]) 1
          (some [Chunk.vini 0 0 []]) 1 []))
        [] true [] [] true [] =
      some (0, vs_info_attach_shader
        (PremaliState.mk none 0 0 none 0 none 0 0 none none)
        (vertex_shader_varyings_patch (vertex_shader_attributes_patch
          ((MaliShaderBinary.mk (some [Chunk.vini 0 0 []]) 1
            (some [Chunk.vini 0 0 []]) 1 []).shader)))) ∧
    fragment_shader_attach (PremaliState.mk none 0 0 none 0 none 0 0 none none)
        (some (MaliShaderBinary.mk (some [Chunk.vini 0 0 []]) 1
          (some [Chunk.vini 0 0 []]) 1 []))
        [] true [] =
      some (0, plbu_info_attach_shader
        (PremaliState.mk none 0 0 none 0 none 0 0 none none)
        ((MaliShaderBinary.mk (some [Chunk.vini 0 0 []]) 1
          (some [Chunk.vini 0 0 []]) 1 []).shader)) := by
  have hmain := C5_amended_attach_behaviour
    (PremaliState.mk none 0 0 none 0 none 0 0 none none)
  refine ⟨hmain.1 [] true [] [] true [], by decide, ?_, ?_⟩
  · exact hmain.2.2.1
      (MaliShaderBinary.mk (some [Chunk.vini 0 0 []]) 1
        (some [Chunk.vini 0 0 []]) 1 []) [] true [] [] true []
      (by decide) (by decide)
  · exact hmain.2.2.2.1
      (MaliShaderBinary.mk (some [Chunk.vini 0 0 []]) 1
        (some [Chunk.vini 0 0 []]) 1 []) [] true [] (by decide)
